import Mathlib

/-!
Verification development for the natural-language query planner / executor
of the TOPdesk MCP bridge (directory `src/app` of the repository:
`planning.py`, `fiql.py`, `validators.py`, `router.py`, `normalize.py`,
`summarize.py`, `schemas.py`).

Modelling conventions:
* Python strings are `List Char` (`PyStr`); `str.lower` is modelled on the
  ASCII range (`Char.toLower`), which is exact for every input exercised by
  the claims and never maps any character onto an upper-case ASCII letter.
* Python regular-expression search (`re.search`) is modelled by a
  backtracking matcher `reM` over a small regex AST.  Alternatives are
  tried left to right and quantifiers are greedy with backtracking, as in
  CPython's `re`.  Each pattern of `planning.py` is transcribed into the
  AST below; patterns compiled with `re.IGNORECASE` use the
  case-insensitive literal `rchI`.
* The clock-dependent helper `days_ago` of `fiql.py`
  (`datetime.utcnow() - timedelta(days=n)` rendered by `iso_utc`) is an
  explicit function parameter `d : Nat → PyStr` of everything that uses it.
* Fallible Python code is modelled with `Except`/`Option`; `try/except`
  blocks become `match` on the `Except` value.
-/

set_option maxRecDepth 20000

namespace Topdesk

/-- Python strings, modelled as lists of characters. -/
abbrev PyStr := List Char

/-- Conversion from Lean string literals. -/
def pys (s : String) : PyStr := s.data

/-- Python `str.isspace` characters in the ASCII range (the model of `\s`,
`str.strip()` and `str.split()` whitespace). -/
def pyIsSpace (c : Char) : Bool :=
  c = ' ' || c = '\t' || c = '\n' || c = '\r' || c = '\x0b' || c = '\x0c'

/-- The ASCII case table: upper-case letters and their lower-case forms. -/
def upperLower : List (Char × Char) :=
  [('A', 'a'), ('B', 'b'), ('C', 'c'), ('D', 'd'), ('E', 'e'), ('F', 'f'),
   ('G', 'g'), ('H', 'h'), ('I', 'i'), ('J', 'j'), ('K', 'k'), ('L', 'l'),
   ('M', 'm'), ('N', 'n'), ('O', 'o'), ('P', 'p'), ('Q', 'q'), ('R', 'r'),
   ('S', 's'), ('T', 't'), ('U', 'u'), ('V', 'v'), ('W', 'w'), ('X', 'x'),
   ('Y', 'y'), ('Z', 'z')]

/-- Python `str.lower` on one character, modelled on the ASCII range
(`A`–`Z` map to `a`–`z`, everything else is unchanged). -/
def pyLowerChar (c : Char) : Char :=
  ((upperLower.find? (fun kv => kv.1 = c)).map Prod.snd).getD c

/-- Python `str.lower`, modelled on the ASCII range. -/
def pyLower (l : PyStr) : PyStr := l.map pyLowerChar

/-- Python `str.strip()`. -/
def pyStrip (l : PyStr) : PyStr :=
  ((l.dropWhile pyIsSpace).reverse.dropWhile pyIsSpace).reverse

/-- Fuelled worker behind `pySplitWs` (structural recursion on the fuel
keeps it kernel-reducible; every step consumes at least one character, so
fuel `length + 1` never runs out). -/
def pySplitWsF : Nat → PyStr → List PyStr
  | 0, _ => []
  | fuel + 1, l =>
    match l.dropWhile pyIsSpace with
    | [] => []
    | c :: t =>
      (c :: t.takeWhile (fun x => !pyIsSpace x)) ::
        pySplitWsF fuel (t.dropWhile (fun x => !pyIsSpace x))

/-- Python `str.split()` (no argument: split on runs of whitespace,
discarding empty tokens). -/
def pySplitWs (l : PyStr) : List PyStr := pySplitWsF (l.length + 1) l

/-- Python substring containment: `hasSubstr l pat` is `pat in l`. -/
def hasSubstr (l pat : PyStr) : Bool :=
  match l with
  | [] => pat.isEmpty
  | _ :: t => pat.isPrefixOf l || hasSubstr t pat

/-- `containsSub hay needle` models the Python expression `needle in hay`. -/
def containsSub (hay needle : PyStr) : Bool := hasSubstr hay needle

/-- Fuelled scanner behind `pyReplace`; structural recursion on the fuel
keeps the definition kernel-reducible.  The fuel never runs out when it
starts at the subject's length. -/
def pyReplaceF (old new : PyStr) : Nat → PyStr → PyStr
  | 0, s => s
  | fuel + 1, s =>
    match s with
    | [] => []
    | c :: t =>
      if old ≠ [] ∧ old.isPrefixOf (c :: t) then
        new ++ pyReplaceF old new fuel ((c :: t).drop old.length)
      else
        c :: pyReplaceF old new fuel t

/-- Python `str.replace(old, new)` (all non-overlapping occurrences, left to
right).  Python's behaviour for an empty `old` (interspersing `new`) is not
modelled: every call site in the sources uses a non-empty pattern, and the
model returns the string unchanged in that case. -/
def pyReplace (s old new : PyStr) : PyStr := pyReplaceF old new s.length s

/-- Python `sep.join(parts)`. -/
def pyJoin (sep : PyStr) : List PyStr → PyStr
  | [] => []
  | [p] => p
  | p :: q :: ps => p ++ sep ++ pyJoin sep (q :: ps)

/-- Decimal rendering of a natural number (Python `str(n)` / f-string
interpolation of a non-negative int). -/
def pyStrNat (n : Nat) : PyStr := (Nat.repr n).data

/-- Numeric value of a digit string (Python `int(s)` for the all-digit
strings produced by the `\d+` capture groups). -/
def digitsVal (l : PyStr) : Nat :=
  l.foldl (fun acc c => acc * 10 + (c.toNat - '0'.toNat)) 0

/-- Truthiness of an optional string (Python `if x:` on `Optional[str]`). -/
def pyTruthyOptStr (o : Option PyStr) : Bool :=
  match o with
  | some s => !s.isEmpty
  | none => false

/-- Truthiness of an optional list (Python `if x:` on `Optional[List[...]]`). -/
def pyTruthyOptList {α : Type} (o : Option (List α)) : Bool :=
  match o with
  | some l => !l.isEmpty
  | none => false

/-- Truthiness of an optional int (Python `if x:` on `Optional[int]`:
`Some 0` is falsy). -/
def pyTruthyOptNat (o : Option Nat) : Bool :=
  match o with
  | some n => n != 0
  | none => false

/-- Python `x or default` for `x : Optional[int]` (used for
`time_filter or 30`): falsy values (absent, or the int `0`) give the
default. -/
def pyOrNat (o : Option Nat) (dflt : Nat) : Nat :=
  match o with
  | some n => if n = 0 then dflt else n
  | none => dflt

/-! ## Regular-expression engine

A backtracking matcher with CPython `re.search` semantics for the pattern
features used in `planning.py` and `validators.py`: ordered alternation,
greedy `*`/`+`/`?` with backtracking, character classes, numbered capture
groups and the word boundary `\b`.  Captures are recorded as index pairs
into the subject string, so captured text is by construction a slice of
the subject. -/

/-- Regex AST. -/
inductive RE where
  | eps
  | cls (p : Char → Bool)
  | seq (a b : RE)
  | alt (a b : RE)
  | star (a : RE)
  | opt (a : RE)
  | group (n : Nat) (a : RE)
  | wordB

/-- ASCII word character (`\w`), used by `\b`. -/
def isWordChar (c : Char) : Bool :=
  ('A' ≤ c && c ≤ 'Z') || ('a' ≤ c && c ≤ 'z') || ('0' ≤ c && c ≤ '9') || c = '_'

/-- ASCII letter (`[A-Za-z]`). -/
def isAsciiLetter (c : Char) : Bool :=
  ('A' ≤ c && c ≤ 'Z') || ('a' ≤ c && c ≤ 'z')

/-- ASCII digit (`\d`). -/
def isAsciiDigit (c : Char) : Bool := '0' ≤ c && c ≤ '9'

/-- Word boundary test at a position. -/
def wordBoundary (inp : PyStr) (pos : Nat) : Bool :=
  let before :=
    match pos with
    | 0 => false
    | p + 1 =>
      match inp.get? p with
      | some c => isWordChar c
      | none => false
  let after :=
    match inp.get? pos with
    | some c => isWordChar c
    | none => false
  before != after

/-- Captured group spans: (group number, start, stop). -/
abbrev Caps := List (Nat × Nat × Nat)

/-- Backtracking matcher in continuation-passing style.  `k` receives the
position after the current node and the capture list; alternatives are
tried in order and quantifiers are greedy, so the first success returned
is the one CPython's `re` would produce.  `fuel` only forces termination;
`reFuel` below always provides enough. -/
def reM (inp : PyStr) : Nat → RE → Nat → Caps →
    (Nat → Caps → Option (Nat × Caps)) → Option (Nat × Caps)
  | 0, _, _, _, _ => none
  | fuel + 1, r, pos, caps, k =>
    match r with
    | .eps => k pos caps
    | .cls p =>
      match inp.get? pos with
      | some c => if p c then k (pos + 1) caps else none
      | none => none
    | .seq a b =>
      reM inp fuel a pos caps (fun p cs => reM inp fuel b p cs k)
    | .alt a b =>
      match reM inp fuel a pos caps k with
      | some res => some res
      | none => reM inp fuel b pos caps k
    | .opt a =>
      match reM inp fuel a pos caps k with
      | some res => some res
      | none => k pos caps
    | .star a =>
      match reM inp fuel a pos caps
          (fun p cs => if pos < p then reM inp fuel (.star a) p cs k else none) with
      | some res => some res
      | none => k pos caps
    | .group n a =>
      reM inp fuel a pos caps (fun p cs => k p ((n, pos, p) :: cs))
    | .wordB => if wordBoundary inp pos then k pos caps else none

/-- Size of a regex AST, used to compute sufficient fuel. -/
def reSize : RE → Nat
  | .eps => 1
  | .cls _ => 1
  | .wordB => 1
  | .seq a b => reSize a + reSize b + 1
  | .alt a b => reSize a + reSize b + 1
  | .star a => reSize a + 1
  | .opt a => reSize a + 1
  | .group _ a => reSize a + 1

/-- Fuel that is always sufficient for `reM` (one unit per AST node on the
active path, with at most `|inp|` iterations of each `star`). -/
def reFuel (inp : PyStr) (r : RE) : Nat := (inp.length + 2) * (reSize r + 2)

/-- Attempt a match anchored at `start`. -/
def reMatchAt (r : RE) (inp : PyStr) (start : Nat) : Option (Nat × Caps) :=
  reM inp (reFuel inp r) r start [] (fun p cs => some (p, cs))

/-- `re.search`: the leftmost start position with a match wins; start
positions `0, 1, ...` up to the string length are tried in order
(structural recursion on the count of remaining start positions).
Returns (start, stop, captures). -/
def reSearchGo (r : RE) (inp : PyStr) : Nat → Nat → Option (Nat × Nat × Caps)
  | 0, _ => none
  | rem + 1, start =>
    match reMatchAt r inp start with
    | some (e, cs) => some (start, e, cs)
    | none =>
      if start < inp.length then reSearchGo r inp rem (start + 1) else none

/-- `re.search(pattern, inp)`. -/
def reSearch (r : RE) (inp : PyStr) : Option (Nat × Nat × Caps) :=
  reSearchGo r inp (inp.length + 1) 0

/-- Slice `l[a:b]`. -/
def listSlice (l : PyStr) (a b : Nat) : PyStr := (l.drop a).take (b - a)

/-- First recorded span of group `n`. -/
def capLookup (caps : Caps) (n : Nat) : Option (Nat × Nat) :=
  match caps with
  | [] => none
  | (m, a, b) :: rest => if m = n then some (a, b) else capLookup rest n

/-- Text of capture group `n` of a search result (`match.group(n)`);
the full match text for `n = 0` (`match.group(0)`). -/
def groupStr (inp : PyStr) (res : Nat × Nat × Caps) (n : Nat) : Option PyStr :=
  if n = 0 then some (listSlice inp res.1 res.2.1)
  else
    match capLookup res.2.2 n with
    | some (a, b) => some (listSlice inp a b)
    | none => none

/-! ### Pattern constructors -/

/-- Case-sensitive literal character. -/
def rch (c : Char) : RE := .cls (fun x => x = c)

/-- Literal character under `re.IGNORECASE`. -/
def rchI (c : Char) : RE := .cls (fun x => x.toLower = c.toLower)

/-- Sequence of regexes. -/
def rseq : List RE → RE
  | [] => .eps
  | [r] => r
  | r :: s :: rs => .seq r (rseq (s :: rs))

/-- Ordered alternation (first alternative preferred, as in `re`). -/
def ralt : List RE → RE
  | [] => .cls (fun _ => false)
  | [r] => r
  | r :: s :: rs => .alt r (ralt (s :: rs))

/-- Case-insensitive literal string. -/
def rstrI (s : String) : RE := rseq (s.data.map rchI)

/-- Greedy `+`. -/
def rplus (a : RE) : RE := .seq a (.star a)

/-- Exact repetition `{n}`. -/
def rep (n : Nat) (a : RE) : RE := rseq (List.replicate n a)

/-- `\s`. -/
def rWS : RE := .cls pyIsSpace

/-- `\d`. -/
def rD : RE := .cls isAsciiDigit

/-- `[A-Za-z]`. -/
def rAl : RE := .cls isAsciiLetter

/-- `[A-Za-z\s]`. -/
def rAlS : RE := .cls (fun c => isAsciiLetter c || pyIsSpace c)

/-- `[=:]`. -/
def rEqColon : RE := .cls (fun c => c = '=' || c = ':')

/-! ### The pattern tables of `QueryPlanner.__init__` -/

/-- `(?:tickets?|incidents?|issues?)`. -/
def reTicketWord3 : RE :=
  ralt [.seq (rstrI "ticket") (.opt (rchI 's')),
        .seq (rstrI "incident") (.opt (rchI 's')),
        .seq (rstrI "issue") (.opt (rchI 's'))]

/-- `(?:tickets?|incidents?)`. -/
def reTicketWord2 : RE :=
  ralt [.seq (rstrI "ticket") (.opt (rchI 's')),
        .seq (rstrI "incident") (.opt (rchI 's'))]

/-- `([A-Za-z][A-Za-z\s]+[A-Za-z])`, the name capture group. -/
def reNameGroup : RE := .group 1 (rseq [rAl, rplus rAlS, rAl])

/-- `\b(?:tickets?|incidents?|issues?)\s+(?:of|from|by|for)\s+([A-Za-z][A-Za-z\s]+[A-Za-z])`. -/
def rePerson1 : RE :=
  rseq [.wordB, reTicketWord3, rplus rWS,
        ralt [rstrI "of", rstrI "from", rstrI "by", rstrI "for"],
        rplus rWS, reNameGroup]

/-- `\b([A-Za-z][A-Za-z\s]+[A-Za-z])\'s?\s+(?:tickets?|incidents?|issues?)`. -/
def rePerson2 : RE :=
  rseq [.wordB, reNameGroup, rch '\'', .opt (rchI 's'), rplus rWS, reTicketWord3]

/-- `\b(?:user|person|caller)\s+([A-Za-z][A-Za-z\s]+[A-Za-z])`. -/
def rePerson3 : RE :=
  rseq [.wordB, ralt [rstrI "user", rstrI "person", rstrI "caller"],
        rplus rWS, reNameGroup]

/-- The ordered `person_patterns` table. -/
def person_patterns : List RE := [rePerson1, rePerson2, rePerson3]

/-- `\b(?:assigned\s+to|operator|technician)\s+([A-Za-z\s]+)`. -/
def reOperator1 : RE :=
  rseq [.wordB,
        ralt [rseq [rstrI "assigned", rplus rWS, rstrI "to"],
              rstrI "operator", rstrI "technician"],
        rplus rWS, .group 1 (rplus rAlS)]

/-- `\b([A-Za-z\s]+)\s+(?:is\s+)?(?:working\s+on|handling)`. -/
def reOperator2 : RE :=
  rseq [.wordB, .group 1 (rplus rAlS), rplus rWS,
        .opt (rseq [rstrI "is", rplus rWS]),
        ralt [rseq [rstrI "working", rplus rWS, rstrI "on"], rstrI "handling"]]

/-- The ordered `operator_patterns` table. -/
def operator_patterns : List RE := [reOperator1, reOperator2]

/-- `(open|closed|resolved|pending|new)`. -/
def reStatusGroup : RE :=
  .group 1 (ralt [rstrI "open", rstrI "closed", rstrI "resolved",
                  rstrI "pending", rstrI "new"])

/-- `\b(open|closed|resolved|pending|new)\s+(?:tickets?|incidents?)`. -/
def reStatus1 : RE := rseq [.wordB, reStatusGroup, rplus rWS, reTicketWord2]

/-- `\b(?:tickets?|incidents?)\s+(?:that\s+are\s+)?(open|closed|resolved|pending|new)`. -/
def reStatus2 : RE :=
  rseq [.wordB, reTicketWord2, rplus rWS,
        .opt (rseq [rstrI "that", rplus rWS, rstrI "are", rplus rWS]),
        reStatusGroup]

/-- `\bstatus\s*[=:]\s*(open|closed|resolved|pending|new)`. -/
def reStatus3 : RE :=
  rseq [.wordB, rstrI "status", .star rWS, rEqColon, .star rWS, reStatusGroup]

/-- The ordered `status_patterns` table. -/
def status_patterns : List RE := [reStatus1, reStatus2, reStatus3]

/-- `\b(high|low|medium|critical|urgent)\s+priority`. -/
def rePriority1 : RE :=
  rseq [.wordB,
        .group 1 (ralt [rstrI "high", rstrI "low", rstrI "medium",
                        rstrI "critical", rstrI "urgent"]),
        rplus rWS, rstrI "priority"]

/-- `\bpriority\s*[=:]\s*(high|low|medium|critical|urgent)`. -/
def rePriority2 : RE :=
  rseq [.wordB, rstrI "priority", .star rWS, rEqColon, .star rWS,
        .group 1 (ralt [rstrI "high", rstrI "low", rstrI "medium",
                        rstrI "critical", rstrI "urgent"])]

/-- `\b(critical|urgent|high|medium|low)\s+(?:tickets?|incidents?)`. -/
def rePriority3 : RE :=
  rseq [.wordB,
        .group 1 (ralt [rstrI "critical", rstrI "urgent", rstrI "high",
                        rstrI "medium", rstrI "low"]),
        rplus rWS, reTicketWord2]

/-- The ordered `priority_patterns` table. -/
def priority_patterns : List RE := [rePriority1, rePriority2, rePriority3]

/-- `\b(change|rfc|request\s+for\s+change)s?\b`. -/
def reCategory1 : RE :=
  rseq [.wordB,
        .group 1 (ralt [rstrI "change", rstrI "rfc",
                        rseq [rstrI "request", rplus rWS, rstrI "for",
                              rplus rWS, rstrI "change"]]),
        .opt (rchI 's'), .wordB]

/-- `\bcategory\s*[=:]\s*([A-Za-z\s]+)`. -/
def reCategory2 : RE :=
  rseq [.wordB, rstrI "category", .star rWS, rEqColon, .star rWS,
        .group 1 (rplus rAlS)]

/-- The ordered `category_patterns` table. -/
def category_patterns : List RE := [reCategory1, reCategory2]

/-- `(I-\d{6}-\d{3})`, the TOPdesk incident-number body. -/
def reIncidentBody : RE :=
  .group 1 (rseq [rchI 'I', rch '-', rep 6 rD, rch '-', rep 3 rD])

/-- `\b(I-\d{6}-\d{3})\b`. -/
def reIncident1 : RE := rseq [.wordB, reIncidentBody, .wordB]

/-- `\bincident\s+(I-\d{6}-\d{3})\b`. -/
def reIncident2 : RE :=
  rseq [.wordB, rstrI "incident", rplus rWS, reIncidentBody, .wordB]

/-- `\bticket\s+(I-\d{6}-\d{3})\b`. -/
def reIncident3 : RE :=
  rseq [.wordB, rstrI "ticket", rplus rWS, reIncidentBody, .wordB]

/-- The ordered `incident_id_patterns` table. -/
def incident_id_patterns : List RE := [reIncident1, reIncident2, reIncident3]

/-- `(days?|weeks?|months?)`. -/
def reUnitGroup : RE :=
  .group 2 (ralt [.seq (rstrI "day") (.opt (rchI 's')),
                  .seq (rstrI "week") (.opt (rchI 's')),
                  .seq (rstrI "month") (.opt (rchI 's'))])

/-- `\b(?:last|past|recent)\s+(\d+)\s+(days?|weeks?|months?)`. -/
def reTime1 : RE :=
  rseq [.wordB, ralt [rstrI "last", rstrI "past", rstrI "recent"],
        rplus rWS, .group 1 (rplus rD), rplus rWS, reUnitGroup]

/-- `\b(\d+)\s+(days?|weeks?|months?)\s+ago`. -/
def reTime2 : RE :=
  rseq [.wordB, .group 1 (rplus rD), rplus rWS, reUnitGroup, rplus rWS,
        rstrI "ago"]

/-- `\btoday\b`. -/
def reTime3 : RE := rseq [.wordB, rstrI "today", .wordB]

/-- `\byesterday\b`. -/
def reTime4 : RE := rseq [.wordB, rstrI "yesterday", .wordB]

/-- `\bthis\s+(week|month)`. -/
def reTime5 : RE :=
  rseq [.wordB, rstrI "this", rplus rWS,
        .group 1 (ralt [rstrI "week", rstrI "month"])]

/-- `\blast\s+(week|month)`. -/
def reTime6 : RE :=
  rseq [.wordB, rstrI "last", rplus rWS,
        .group 1 (ralt [rstrI "week", rstrI "month"])]

/-- The ordered `time_patterns` table. -/
def time_patterns : List RE :=
  [reTime1, reTime2, reTime3, reTime4, reTime5, reTime6]

/-! ## Schemas (`schemas.py`) -/

/-- A JSON-ish payload value (`Dict[str, Any]` values used by the planner:
strings and non-negative ints). -/
inductive PVal where
  | s (v : PyStr)
  | n (v : Nat)
deriving DecidableEq

/-- `ToolCall`: one named MCP tool invocation.  The payload dict is an
insertion-ordered association list, as in Python 3.7+. -/
structure ToolCall where
  name : PyStr
  payload : List (PyStr × PVal)
deriving DecidableEq

/-- `PlanStep`. -/
structure PlanStep where
  step : Nat
  action : PyStr
  tool_name : Option PyStr
  reasoning : PyStr
deriving DecidableEq

/-- `QueryPlan`. -/
structure QueryPlan where
  intent : PyStr
  steps : List PlanStep
  tool_calls : List ToolCall
  clarify : Option PyStr := none
  warnings : List PyStr := []
deriving DecidableEq

/-- `NormalizedIncident`. -/
structure NormalizedIncident where
  id : PyStr
  number : PyStr
  title : PyStr
  status : PyStr
  created_at : PyStr
  priority : Option PyStr
  caller : Option PyStr
  operator : Option PyStr
  operator_group : Option PyStr
deriving DecidableEq

/-! ## FIQL builders (`fiql.py`) -/

/-- `quote_value`: escape backslashes, then single quotes, then wrap in
single quotes; the empty string gives `''`. -/
def quote_value (value : PyStr) : PyStr :=
  if value.isEmpty then pys "''"
  else
    let escaped := pyReplace value (pys "\\") (pys "\\\\")
    let escaped := pyReplace escaped (pys "'") (pys "\\'")
    pys "'" ++ escaped ++ pys "'"

/-- `and_join(*parts)`: drop empty/blank parts, join with `;`. -/
def and_join (parts : List PyStr) : PyStr :=
  pyJoin (pys ";") (parts.filter fun p => !p.isEmpty && !(pyStrip p).isEmpty)

/-- `or_join(*parts)`: drop empty/blank parts, join with `,`. -/
def or_join (parts : List PyStr) : PyStr :=
  pyJoin (pys ",") (parts.filter fun p => !p.isEmpty && !(pyStrip p).isEmpty)

/-- `in_list(field, values)`. -/
def in_list (field : PyStr) (values : List PyStr) : PyStr :=
  if values.isEmpty then []
  else
    let quoted_values := values.map quote_value
    field ++ pys "=in=(" ++ pyJoin (pys ",") quoted_values ++ pys ")"

/-- `equals(field, value)`. -/
def equals (field value : PyStr) : PyStr :=
  field ++ pys "==" ++ quote_value value

/-- `not_equals(field, value)`. -/
def not_equals (field value : PyStr) : PyStr :=
  field ++ pys "!=" ++ quote_value value

/-- `starts_with(field, value)`. -/
def starts_with (field value : PyStr) : PyStr :=
  field ++ pys "=sw=" ++ quote_value value

/-- One optional clause of `build_person_query` (`if x: parts.append(...)`). -/
def optClause (o : Option PyStr) (mk : PyStr → PyStr) : List PyStr :=
  if pyTruthyOptStr o then [mk (o.getD [])] else []

/-- `build_person_query(first_name, last_name, email)`. -/
def build_person_query (first_name last_name email : Option PyStr) : PyStr :=
  and_join (optClause first_name (equals (pys "firstName")) ++
            optClause last_name (equals (pys "surname")) ++
            optClause email (equals (pys "email")))

/-- `build_operator_query(name, exact)`. -/
def build_operator_query (name : Option PyStr) (exact : Bool) : PyStr :=
  if !pyTruthyOptStr name then []
  else if exact then equals (pys "name") (name.getD [])
  else starts_with (pys "name") (name.getD [])

/-- `validate_fiql(query)`. -/
def validate_fiql (query : PyStr) : Bool :=
  if query.isEmpty || (pyStrip query).isEmpty then false
  else if (query.count '\'') % 2 != 0 then false
  else if query.count '(' != query.count ')' then false
  else
    [pys "==", pys "!=", pys "=ge=", pys "=le=", pys "=gt=", pys "=lt=",
     pys "=sw=", pys "=in="].any (fun op => containsSub query op)

/-! ## Validators (`validators.py`) -/

/-- The anchored regex `^I-\d{6}-\d{3}$` of `validate_incident_number`,
transcribed directly (note: case-sensitive, upper-case `I`). -/
def incidentNumberFormat (value : PyStr) : Bool :=
  match value with
  | 'I' :: '-' :: rest =>
    let d6 := rest.take 6
    let rest2 := rest.drop 6
    d6.length = 6 && d6.all isAsciiDigit &&
      (match rest2 with
       | '-' :: d3 => d3.length = 3 && d3.all isAsciiDigit
       | _ => false)
  | _ => false

/-- `validate_incident_number`: raises `ValidationError` (modelled as
`.error` carrying the message) on empty or ill-formatted input. -/
def validate_incident_number (value : PyStr) : Except PyStr PyStr :=
  if value.isEmpty then .error (pys "Incident number cannot be empty")
  else if !incidentNumberFormat value then
    .error (pys "Invalid incident number format: " ++ value ++
            pys ". Expected format: I-YYMMDD-NNN")
  else .ok value

/-- The anchored name-shape regex `^[A-Za-z\s\-\'\.]+$` used inside
`_extract_person_name` (the `$`-before-trailing-newline subtlety of `re`
is irrelevant here: the subject is already stripped). -/
def matchesNameShape (name : PyStr) : Bool :=
  !name.isEmpty &&
    name.all (fun c => isAsciiLetter c || pyIsSpace c || c = '-' || c = '\'' || c = '.')

/-! ## Intent extractors (`QueryPlanner._extract_*`) -/

/-- The `excluded_terms` stop-word list of `_extract_person_name`. -/
def excluded_terms : List PyStr :=
  [pys "user", pys "person", pys "caller", pys "someone", pys "tickets",
   pys "incidents", pys "changes", pys "problems", pys "issues",
   pys "requests", pys "email", pys "password", pys "network", pys "system",
   pys "server", pys "application", pys "last week", pys "yesterday",
   pys "recent", pys "open", pys "closed", pys "high", pys "low",
   pys "medium", pys "critical", pys "priority", pys "urgent"]

/-- Loop body of `_extract_person_name`: each pattern in order; a match
whose captured name fails the filters falls through to the next pattern. -/
def extractPersonGo (query : PyStr) : List RE → Option PyStr
  | [] => none
  | r :: rs =>
    match reSearch r query with
    | some res =>
      let name := pyStrip ((groupStr query res 1).getD [])
      if !(excluded_terms.contains (pyLower name)) && (pySplitWs name).length ≤ 3 then
        if matchesNameShape name && 2 ≤ name.length && name.length ≤ 50 then
          some name
        else extractPersonGo query rs
      else extractPersonGo query rs
    | none => extractPersonGo query rs

/-- `_extract_person_name`. -/
def extract_person_name (query : PyStr) : Option PyStr :=
  extractPersonGo query person_patterns

/-- Loop body of `_extract_operator_name`. -/
def extractOperatorGo (query : PyStr) : List RE → Option PyStr
  | [] => none
  | r :: rs =>
    match reSearch r query with
    | some res =>
      let name := pyStrip ((groupStr query res 1).getD [])
      if !([pys "operator", pys "technician", pys "support"].contains (pyLower name)) then
        some name
      else extractOperatorGo query rs
    | none => extractOperatorGo query rs

/-- `_extract_operator_name`. -/
def extract_operator_name (query : PyStr) : Option PyStr :=
  extractOperatorGo query operator_patterns

/-- Loop body of `_extract_incident_id`. -/
def extractIncidentGo (query : PyStr) : List RE → Option PyStr
  | [] => none
  | r :: rs =>
    match reSearch r query with
    | some res => some ((groupStr query res 1).getD [])
    | none => extractIncidentGo query rs

/-- `_extract_incident_id`. -/
def extract_incident_id (query : PyStr) : Option PyStr :=
  extractIncidentGo query incident_id_patterns

/-- Loop body of `_extract_status` (pattern phase, with the open/closed
synonym mapping applied to the first match). -/
def extractStatusGo (query : PyStr) : List RE → Option PyStr
  | [] => none
  | r :: rs =>
    match reSearch r query with
    | some res =>
      let status := pyLower ((groupStr query res 1).getD [])
      if [pys "open", pys "new", pys "pending"].contains status then
        some (pys "open")
      else if [pys "closed", pys "resolved"].contains status then
        some (pys "closed")
      else some status
    | none => extractStatusGo query rs

/-- `_extract_status`: pattern phase, then the loose keyword scan
defaulting to `open`. -/
def extract_status (query : PyStr) : Option PyStr :=
  match extractStatusGo query status_patterns with
  | some s => some s
  | none =>
    if [pys "open", pys "active", pys "unresolved", pys "pending"].any
        (fun w => containsSub query w) then
      some (pys "open")
    else none

/-- Contribution of one priority pattern to the `priorities` list of
`_extract_priority`. -/
def priorityOf (query : PyStr) (r : RE) : List PyStr :=
  match reSearch r query with
  | some res =>
    let priority := pyLower ((groupStr query res 1).getD [])
    if priority = pys "critical" || priority = pys "urgent" then [pys "Critical"]
    else if priority = pys "high" then [pys "High"]
    else if priority = pys "medium" then [pys "Medium"]
    else if priority = pys "low" then [pys "Low"]
    else []
  | none => []

/-- `_extract_priority`: every pattern is scanned and may append; `None`
when nothing was collected. -/
def extract_priority (query : PyStr) : Option (List PyStr) :=
  let priorities := (priority_patterns.map (priorityOf query)).flatten
  if priorities.isEmpty then none else some priorities

/-- Loop body of `_extract_category`. -/
def extractCategoryGo (query : PyStr) : List RE → Option PyStr
  | [] => none
  | r :: rs =>
    match reSearch r query with
    | some res =>
      let category := pyLower ((groupStr query res 1).getD [])
      if containsSub category (pys "change") || containsSub category (pys "rfc") then
        some (pys "Change")
      else extractCategoryGo query rs
    | none => extractCategoryGo query rs

/-- `_extract_category`. -/
def extract_category (query : PyStr) : Option PyStr :=
  extractCategoryGo query category_patterns

/-- Loop body of `_extract_time_constraint`.  For the two patterns that
reach the numeric branch, groups 1 and 2 always exist and group 1 is all
digits, so the guarded `int()` cannot fail; an unrecognised unit plays the
role of the `except: pass` fall-through. -/
def extractTimeGo (query : PyStr) : List RE → Option Nat
  | [] => none
  | r :: rs =>
    match reSearch r query with
    | some res =>
      let g0 := pyLower ((groupStr query res 0).getD [])
      if containsSub g0 (pys "today") then some 1
      else if containsSub g0 (pys "yesterday") then some 2
      else if containsSub g0 (pys "this week") then some 7
      else if containsSub g0 (pys "last week") then some 14
      else if containsSub g0 (pys "this month") then some 30
      else if containsSub g0 (pys "last month") then some 60
      else
        let number := digitsVal ((groupStr query res 1).getD [])
        let unit := pyLower ((groupStr query res 2).getD [])
        if containsSub unit (pys "day") then some number
        else if containsSub unit (pys "week") then some (number * 7)
        else if containsSub unit (pys "month") then some (number * 30)
        else extractTimeGo query rs
    | none => extractTimeGo query rs

/-- `_extract_time_constraint`. -/
def extract_time_constraint (query : PyStr) : Option Nat :=
  extractTimeGo query time_patterns

/-- `_is_search_query`. -/
def is_search_query (query : PyStr) : Bool :=
  let i1 := decide ((pySplitWs query).length ≤ 3)
  let i2 := [pys "find", pys "search", pys "look for"].any
    (fun w => containsSub query w)
  let i3 := !([pys "status", pys "priority", pys "assigned", pys "operator",
               pys "for", pys "to"].any (fun op => containsSub query op))
  let i4 := [pys "email", pys "password", pys "network", pys "server",
             pys "application", pys "system", pys "login", pys "access",
             pys "error", pys "problem", pys "issue", pys "bug",
             pys "crash"].any (fun t => containsSub (pyLower query) t)
  i1 || i2 || i3 || i4

/-! ## Plan constructors (`QueryPlanner._plan_*`)

`d : Nat → PyStr` is the clock-dependent `days_ago` helper of `fiql.py`,
passed as an explicit parameter (see the header comment). -/

/-- `_plan_person_query`. -/
def plan_person_query (d : Nat → PyStr) (person_name : PyStr)
    (status_filter : Option PyStr) (time_filter : Option Nat)
    (max_results : Nat) (original_query : PyStr) : QueryPlan :=
  let name_parts := pySplitWs person_name
  let person_fiql :=
    if 2 ≤ name_parts.length then
      build_person_query (some (name_parts.headD [])) (some (name_parts.getLastD [])) none
    else
      build_person_query none (some person_name) none
  let time_days := pyOrNat time_filter 30
  let incident_filters :=
    (if status_filter = some (pys "open") then [pys "status!=Closed"] else []) ++
    [pys "creationDate=ge=" ++ d time_days]
  let incident_query := and_join incident_filters
  { intent := pys "Find incidents for person: " ++ person_name
    steps :=
      [{ step := 1
         action := pys "Look up person: " ++ person_name
         tool_name := some (pys "topdesk_get_person_by_query")
         reasoning := pys "Need to find person ID for '" ++ person_name ++
           pys "' to search their incidents" },
       { step := 2
         action := pys "Get incidents for person (last " ++ pyStrNat time_days ++
           pys " days)"
         tool_name := some (pys "topdesk_get_incidents_by_fiql_query")
         reasoning := pys "Retrieve incidents where caller is the found person, filtered by time and status" }]
    tool_calls :=
      [{ name := pys "topdesk_get_person_by_query"
         payload := [(pys "fiql_query", .s person_fiql)] },
       { name := pys "topdesk_get_incidents_by_fiql_query"
         payload :=
           [(pys "fiql_query", .s (pys "caller.id==PLACEHOLDER;" ++ incident_query)),
            (pys "page_size", .n max_results)] }]
    warnings :=
      if name_parts.length < 2 then
        [pys "Single name '" ++ person_name ++ pys "' may match multiple people"]
      else [] }

/-- `_plan_operator_query`. -/
def plan_operator_query (d : Nat → PyStr) (operator_name : PyStr)
    (status_filter : Option PyStr) (time_filter : Option Nat)
    (max_results : Nat) (original_query : PyStr) : QueryPlan :=
  let operator_fiql := build_operator_query (some operator_name) true
  let time_days := pyOrNat time_filter 30
  let incident_filters :=
    (if status_filter = some (pys "open") then [pys "status!=Closed"] else []) ++
    [pys "creationDate=ge=" ++ d time_days]
  let incident_query := and_join incident_filters
  { intent := pys "Find incidents assigned to operator: " ++ operator_name
    steps :=
      [{ step := 1
         action := pys "Look up operator: " ++ operator_name
         tool_name := some (pys "topdesk_get_operators_by_fiql_query")
         reasoning := pys "Need to find operator ID for '" ++ operator_name ++
           pys "' to search assigned incidents" },
       { step := 2
         action := pys "Get incidents assigned to operator (last " ++
           pyStrNat time_days ++ pys " days)"
         tool_name := some (pys "topdesk_get_incidents_by_fiql_query")
         reasoning := pys "Retrieve incidents assigned to the found operator" }]
    tool_calls :=
      [{ name := pys "topdesk_get_operators_by_fiql_query"
         payload := [(pys "fiql_query", .s operator_fiql)] },
       { name := pys "topdesk_get_incidents_by_fiql_query"
         payload :=
           [(pys "fiql_query", .s (pys "operator.id==PLACEHOLDER;" ++ incident_query)),
            (pys "page_size", .n max_results)] }]
    warnings := [] }

/-- `_plan_category_query`. -/
def plan_category_query (d : Nat → PyStr) (category : PyStr)
    (status_filter : Option PyStr) (priority_filter : Option (List PyStr))
    (time_filter : Option Nat) (max_results : Nat) (original_query : PyStr) :
    QueryPlan :=
  let time_days := pyOrNat time_filter 60
  let fiql_parts :=
    [pys "category.name=='" ++ category ++ pys "'"] ++
    (if status_filter = some (pys "open") then [pys "status!=Closed"] else []) ++
    (if pyTruthyOptList priority_filter then
       [in_list (pys "priority.name") (priority_filter.getD [])]
     else []) ++
    [pys "creationDate=ge=" ++ d time_days]
  let fiql_query := and_join fiql_parts
  { intent := pys "Find " ++ category ++ pys " incidents"
    steps :=
      [{ step := 1
         action := pys "Get " ++ category ++ pys " incidents (last " ++
           pyStrNat time_days ++ pys " days)"
         tool_name := some (pys "topdesk_get_incidents_by_fiql_query")
         reasoning := pys "Search for incidents in " ++ category ++
           pys " category with specified filters" }]
    tool_calls :=
      [{ name := pys "topdesk_get_incidents_by_fiql_query"
         payload := [(pys "fiql_query", .s fiql_query),
                     (pys "page_size", .n max_results)] }] }

/-- `_plan_search_query`. -/
def plan_search_query (query : PyStr) (time_filter : Option Nat)
    (max_results : Nat) : QueryPlan :=
  { intent := pys "Search for: " ++ query
    steps :=
      [{ step := 1
         action := pys "Search for: " ++ query
         tool_name := some (pys "search")
         reasoning := pys "Simple text search across incident data" }]
    tool_calls :=
      [{ name := pys "search"
         payload := [(pys "query", .s query), (pys "max_results", .n max_results)] }]
    warnings :=
      if pyTruthyOptNat time_filter then
        [pys "Time filter of " ++ pyStrNat (time_filter.getD 0) ++
         pys " days may not be applied to search results"]
      else [] }

/-- `_plan_fiql_query`. -/
def plan_fiql_query (d : Nat → PyStr) (query : PyStr)
    (status_filter : Option PyStr) (priority_filter : Option (List PyStr))
    (time_filter : Option Nat) (max_results : Nat) : QueryPlan :=
  let time_days := pyOrNat time_filter 30
  let fiql_parts :=
    (if status_filter = some (pys "open") then [pys "status!=Closed"] else []) ++
    (if pyTruthyOptList priority_filter then
       [in_list (pys "priority.name") (priority_filter.getD [])]
     else []) ++
    [pys "creationDate=ge=" ++ d time_days]
  let fiql_query := and_join fiql_parts
  { intent := pys "Find incidents matching filters"
    steps :=
      [{ step := 1
         action := pys "Query incidents with filters (last " ++
           pyStrNat time_days ++ pys " days)"
         tool_name := some (pys "topdesk_get_incidents_by_fiql_query")
         reasoning := pys "Use FIQL to filter incidents by status, priority, and time" }]
    tool_calls :=
      [{ name := pys "topdesk_get_incidents_by_fiql_query"
         payload := [(pys "fiql_query", .s fiql_query),
                     (pys "page_size", .n max_results)] }] }

/-- `_plan_complete_incident`: the `try/except ValidationError` around
`validate_incident_number` becomes a `match` on the `Except` value. -/
def plan_complete_incident (incident_id original_query : PyStr) : QueryPlan :=
  match validate_incident_number incident_id with
  | .error _ =>
    { intent := pys "Invalid incident ID"
      steps := []
      tool_calls := []
      clarify := some (pys "Invalid incident number format: " ++ incident_id ++
        pys ". Expected format: I-YYMMDD-NNN") }
  | .ok _ =>
    { intent := pys "Get complete details for incident " ++ incident_id
      steps :=
        [{ step := 1
           action := pys "Get complete overview for incident " ++ incident_id
           tool_name := some (pys "topdesk_get_complete_incident_overview")
           reasoning := pys "Retrieve full details for incident " ++ incident_id }]
      tool_calls :=
        [{ name := pys "topdesk_get_complete_incident_overview"
           payload := [(pys "incident_id", .s incident_id)] }] }

/-- `_plan_clarification`. -/
def plan_clarification (query : PyStr) : QueryPlan :=
  let msg := pys "Your query is ambiguous. Please specify:\n"
  let msg :=
    if [pys "sander", pys "john", pys "jane"].any
        (fun n => containsSub (pyLower query) n) then
      msg ++ pys "- The full name of the person you're asking about\n"
    else msg
  let msg :=
    if containsSub (pyLower query) (pys "ticket") ||
       containsSub (pyLower query) (pys "incident") then
      msg ++ pys "- Whether you want open/closed incidents\n" ++
        pys "- The time period you're interested in\n"
    else msg
  let msg := msg ++ pys "- What specific information you need"
  { intent := pys "Clarification needed"
    steps := []
    tool_calls := []
    clarify := some msg }

/-- `QueryPlanner.plan_query`: lower-case and strip, run every extractor,
then dispatch through the first-match-wins branch ladder.  When
`incident_id` is truthy the branch passes the contained string (the
`getD []` cannot be hit there). -/
def plan_query (d : Nat → PyStr) (query0 : PyStr) (max_results : Nat) : QueryPlan :=
  let query := pyStrip (pyLower query0)
  let person_match := extract_person_name query
  let operator_match := extract_operator_name query
  let incident_id := extract_incident_id query
  let status_filter := extract_status query
  let priority_filter := extract_priority query
  let category_filter := extract_category query
  let time_filter := extract_time_constraint query
  if pyTruthyOptStr incident_id &&
      ([pys "complete", pys "full", pys "overview", pys "details", pys "all"].any
        (fun w => containsSub query w)) then
    plan_complete_incident (incident_id.getD []) query
  else if pyTruthyOptStr person_match then
    plan_person_query d (person_match.getD []) status_filter time_filter
      max_results query
  else if pyTruthyOptStr operator_match then
    plan_operator_query d (operator_match.getD []) status_filter time_filter
      max_results query
  else if pyTruthyOptStr category_filter then
    plan_category_query d (category_filter.getD []) status_filter
      priority_filter time_filter max_results query
  else if is_search_query query then
    plan_search_query query time_filter max_results
  else if pyTruthyOptStr status_filter || pyTruthyOptList priority_filter ||
      pyTruthyOptNat time_filter || decide (5 < (pySplitWs query).length) then
    plan_fiql_query d query status_filter priority_filter time_filter max_results
  else
    plan_clarification query

/-! ## JSON-ish values and normalization (`normalize.py`)

MCP tool responses are arbitrary JSON-like data.  `Value` models the
shapes observed by `normalize.py`; dicts are insertion-ordered association
lists. -/

/-- A Python/JSON value. -/
inductive Value where
  | null
  | str (s : PyStr)
  | nat (n : Nat)
  | bool (b : Bool)
  | list (l : List Value)
  | dict (d : List (PyStr × Value))

/-- Python truthiness of a `Value`. -/
def pyTruthy (v : Value) : Bool :=
  match v with
  | .null => false
  | .str s => !s.isEmpty
  | .nat n => n != 0
  | .bool b => b
  | .list l => !l.isEmpty
  | .dict d => !d.isEmpty

/-- Key lookup in a dict association list. -/
def dictLookup (d : List (PyStr × Value)) (k : PyStr) : Option Value :=
  match d with
  | [] => none
  | (k', v) :: rest => if k' = k then some v else dictLookup rest k

/-- `key in d` for a dict. -/
def dictHasKey (d : List (PyStr × Value)) (k : PyStr) : Bool :=
  (dictLookup d k).isSome

/-- `safe_get(data, key, default=...)` of `normalize.py` for the
single-key calls used here: the value when `data` is a dict containing
`key`, the default otherwise. -/
def safeGet (data : Value) (key : PyStr) (dflt : Value) : Value :=
  match data with
  | .dict d => (dictLookup d key).getD dflt
  | _ => dflt

/-- Python `x or y` on values: `x` when truthy, else `y`. -/
def pyOrV (x y : Value) : Value := if pyTruthy x then x else y

/-- Python `len(x)`; raises `TypeError` (modelled as `.error`) on unsized
values. -/
def pyLen (v : Value) : Except Unit Nat :=
  match v with
  | .str s => .ok s.length
  | .list l => .ok l.length
  | .dict d => .ok d.length
  | _ => .error ()

/-- Python `x[0]`; a one-character string for strings, `IndexError` /
`KeyError` / `TypeError` (modelled as `.error`) otherwise. -/
def pyIndex0 (v : Value) : Except Unit Value :=
  match v with
  | .list (x :: _) => .ok x
  | .str (c :: _) => .ok (.str [c])
  | _ => .error ()

/-- `repr(value)` (simplified: strings always single-quoted; the
quoting-style corner cases of CPython's `repr` are irrelevant to every
property proved here). -/
def pyReprVal : Value → PyStr
  | .str s => pys "'" ++ s ++ pys "'"
  | .null => pys "None"
  | .nat n => pyStrNat n
  | .bool b => if b then pys "True" else pys "False"
  | .list l => pys "[" ++ pyJoin (pys ", ") (l.attach.map fun x => pyReprVal x.1) ++ pys "]"
  | .dict d =>
    pys "\x7b" ++
      pyJoin (pys ", ")
        (d.attach.map fun kv => pys "'" ++ kv.1.1 ++ pys "': " ++ pyReprVal kv.1.2) ++
      pys "\x7d"
decreasing_by
  · have := List.sizeOf_lt_of_mem x.2
    simp
    try omega
  · have h1 := List.sizeOf_lt_of_mem kv.2
    have h2 : sizeOf kv.1.2 < sizeOf kv.1 := by
      cases kv.1
      simp
      try omega
    simp at h1 h2 ⊢
    omega

/-- `str(value)` for f-string interpolation. -/
def pyStrVal : Value → PyStr
  | .null => pys "None"
  | .str s => s
  | .nat n => pyStrNat n
  | .bool b => if b then pys "True" else pys "False"
  | .list l => pyReprVal (.list l)
  | .dict d => pyReprVal (.dict d)

/-- `str.strip()` on a value that the Python code assumes to be a string;
any other shape raises `AttributeError` (modelled as `.error`). -/
def pyStripVal (v : Value) : Except Unit PyStr :=
  match v with
  | .str s => .ok (pyStrip s)
  | _ => .error ()

/-- `normalize_person_name(person_data)`: display name, else first+last,
else either, else the raw `name` field (returned unstripped and untyped,
exactly as in the source).  `.strip()` on a non-string field propagates as
an exception. -/
def normalizePersonName (person_data : Value) : Except Unit Value :=
  if !pyTruthy person_data || !(match person_data with | .dict _ => true | _ => false) then
    .ok (.str [])
  else do
    let first_name ← pyStripVal (safeGet person_data (pys "firstName") (.str []))
    let last_name ← pyStripVal (safeGet person_data (pys "surname") (.str []))
    let display_name ← pyStripVal (safeGet person_data (pys "dynamicName") (.str []))
    if !display_name.isEmpty then
      .ok (.str display_name)
    else if !first_name.isEmpty && !last_name.isEmpty then
      .ok (.str (first_name ++ pys " " ++ last_name))
    else if !first_name.isEmpty then
      .ok (.str first_name)
    else if !last_name.isEmpty then
      .ok (.str last_name)
    else
      .ok (safeGet person_data (pys "name") (.str []))

/-- The dict built by `normalize_person_response`. -/
structure PersonInfo where
  id : Value
  name : Value
  email : Value
  firstName : Value
  surname : Value

/-- The dict built by `normalize_operator_response`. -/
structure OperatorInfo where
  id : Value
  name : Value
  firstName : Value
  surname : Value

/-- Selection of the person record inside `normalize_person_response`:
either the response itself (when it has an `id`/`firstName`/`surname`
key), or the first element of a nested `persons`/`data`/`results`
collection. -/
def personDataOf (response : Value) : Except Unit (Option Value) :=
  match response with
  | .dict d =>
    if dictHasKey d (pys "id") || dictHasKey d (pys "firstName") ||
        dictHasKey d (pys "surname") then
      .ok (some response)
    else
      let person_list :=
        pyOrV (safeGet response (pys "persons") (.list []))
          (pyOrV (safeGet response (pys "data") (.list []))
            (safeGet response (pys "results") (.list [])))
      if pyTruthy person_list then do
        let n ← pyLen person_list
        if n > 0 then
          let x ← pyIndex0 person_list
          .ok (some x)
        else .ok none
      else .ok none
  | _ => .ok none

/-- `normalize_person_response`: any internal exception is swallowed by
the `try/except` and becomes `None`. -/
def normalizePersonResponse (response : Value) : Option PersonInfo :=
  match personDataOf response with
  | .error _ => none
  | .ok none => none
  | .ok (some person_data) =>
    if !pyTruthy person_data then none
    else
      match normalizePersonName person_data with
      | .error _ => none
      | .ok nm =>
        some { id := safeGet person_data (pys "id") (.str [])
               name := nm
               email := safeGet person_data (pys "email") (.str [])
               firstName := safeGet person_data (pys "firstName") (.str [])
               surname := safeGet person_data (pys "surname") (.str []) }

/-- Selection of the operator record inside
`normalize_operator_response` (note the conjunction: `"id" in response and
"name" in response`). -/
def operatorDataOf (response : Value) : Except Unit (Option Value) :=
  match response with
  | .dict d =>
    if dictHasKey d (pys "id") && dictHasKey d (pys "name") then
      .ok (some response)
    else
      let operator_list :=
        pyOrV (safeGet response (pys "operators") (.list []))
          (pyOrV (safeGet response (pys "data") (.list []))
            (safeGet response (pys "results") (.list [])))
      if pyTruthy operator_list then do
        let n ← pyLen operator_list
        if n > 0 then
          let x ← pyIndex0 operator_list
          .ok (some x)
        else .ok none
      else .ok none
  | _ => .ok none

/-- `normalize_operator_response`. -/
def normalizeOperatorResponse (response : Value) : Option OperatorInfo :=
  match operatorDataOf response with
  | .error _ => none
  | .ok none => none
  | .ok (some operator_data) =>
    if !pyTruthy operator_data then none
    else
      some { id := safeGet operator_data (pys "id") (.str [])
             name := safeGet operator_data (pys "name") (.str [])
             firstName := safeGet operator_data (pys "firstName") (.str [])
             surname := safeGet operator_data (pys "surname") (.str []) }

/-! ## Plan executor (`router.py`) -/

/-- The `str()` rendering of one payload entry (keys and string values in
single quotes, ints bare). -/
def entryOf (kv : PyStr × PVal) : PyStr :=
  pys "'" ++ kv.1 ++ pys "': " ++
    (match kv.2 with
     | .s v => pys "'" ++ v ++ pys "'"
     | .n v => pyStrNat v)

/-- `str(tool_call.payload)`: the Python `str()` of the payload dict, used
only for the executor's `"PLACEHOLDER" in str(...)` test. -/
def strOfPayload (payload : List (PyStr × PVal)) : PyStr :=
  pys "\x7b" ++ pyJoin (pys ", ") (payload.map entryOf) ++ pys "\x7d"

/-- Payload lookup (`payload["k"]` / `"k" in payload`). -/
def payloadLookup (payload : List (PyStr × PVal)) (k : PyStr) : Option PVal :=
  match payload with
  | [] => none
  | (k', v) :: rest => if k' = k then some v else payloadLookup rest k

/-- Replace the value stored under `k` (`payload["k"] = v`). -/
def payloadSet (payload : List (PyStr × PVal)) (k : PyStr) (v : PVal) :
    List (PyStr × PVal) :=
  match payload with
  | [] => []
  | (k', v') :: rest =>
    if k' = k then (k', v) :: rest else (k', v') :: payloadSet rest k v

/-- The person-id scan of `_resolve_placeholder`: first previous response
whose key contains `"person"` and which normalizes to a record with a
truthy `id`; non-qualifying entries are skipped. -/
def findPersonId : List (PyStr × Value) → Option Value
  | [] => none
  | (k, v) :: rest =>
    if containsSub k (pys "person") then
      match normalizePersonResponse v with
      | some info => if pyTruthy info.id then some info.id else findPersonId rest
      | none => findPersonId rest
    else findPersonId rest

/-- The operator-id scan of `_resolve_placeholder`. -/
def findOperatorId : List (PyStr × Value) → Option Value
  | [] => none
  | (k, v) :: rest =>
    if containsSub k (pys "operator") then
      match normalizeOperatorResponse v with
      | some info => if pyTruthy info.id then some info.id else findOperatorId rest
      | none => findOperatorId rest
    else findOperatorId rest

/-- `QueryRouter._resolve_placeholder`.  The `in` test on a non-string
`payload["fiql_query"]` would raise `TypeError` in Python; that is
modelled as `.error`, which the per-step `try/except` of the executor
catches. -/
def resolvePlaceholder (tc : ToolCall) (previous_responses : List (PyStr × Value)) :
    Except Unit ToolCall :=
  match payloadLookup tc.payload (pys "fiql_query") with
  | some (.s fiql_query) =>
    if containsSub fiql_query (pys "caller.id==PLACEHOLDER") then
      let fiql_query' :=
        match findPersonId previous_responses with
        | some person_id =>
          pyReplace fiql_query (pys "caller.id==PLACEHOLDER")
            (pys "caller.id=='" ++ pyStrVal person_id ++ pys "'")
        | none =>
          pyReplace fiql_query (pys "caller.id==PLACEHOLDER")
            (pys "caller.id=='NOTFOUND'")
      .ok { name := tc.name
            payload := payloadSet tc.payload (pys "fiql_query") (.s fiql_query') }
    else if containsSub fiql_query (pys "operator.id==PLACEHOLDER") then
      let fiql_query' :=
        match findOperatorId previous_responses with
        | some operator_id =>
          pyReplace fiql_query (pys "operator.id==PLACEHOLDER")
            (pys "operator.id=='" ++ pyStrVal operator_id ++ pys "'")
        | none =>
          pyReplace fiql_query (pys "operator.id==PLACEHOLDER")
            (pys "operator.id=='NOTFOUND'")
      .ok { name := tc.name
            payload := payloadSet tc.payload (pys "fiql_query") (.s fiql_query') }
    else .ok tc
  | some (.n _) => .error ()
  | none => .ok tc

/-- Outcome of `QueryRouter._execute_plan`: the tool calls whose payloads
were actually passed to `client.call_tool` (in order), the recorded raw
responses, and the `executed_tools` list. -/
structure ExecResult where
  calls : List ToolCall
  raw : List (PyStr × Value)
  executed : List ToolCall

/-- The step loop of `_execute_plan`.  The external client is an oracle
`client : Nat → ToolCall → Except PyStr Value` (step index, resolved
call); an `.error` models any exception raised by `call_tool`, recorded as
an `{"error": str(e)}` entry without aborting the remaining steps. -/
def execSteps (client : Nat → ToolCall → Except PyStr Value) :
    Nat → List (PyStr × Value) → List ToolCall → List ToolCall →
    List ToolCall → ExecResult
  | _, raw, calls, executed, [] =>
    { calls := calls, raw := raw, executed := executed }
  | i, raw, calls, executed, tc :: rest =>
    let key := pys "step_" ++ pyStrNat (i + 1) ++ pys "_" ++ tc.name
    let resolved : Except Unit ToolCall :=
      if containsSub (strOfPayload tc.payload) (pys "PLACEHOLDER") then
        resolvePlaceholder tc raw
      else .ok tc
    match resolved with
    | .error _ =>
      -- resolution raised; the per-step `except` records the error and
      -- `call_tool` is never reached for this step
      execSteps client (i + 1)
        (raw ++ [(key, .dict [(pys "error", .str (pys "TypeError"))])])
        calls executed rest
    | .ok tc' =>
      match client i tc' with
      | .ok response =>
        execSteps client (i + 1) (raw ++ [(key, response)])
          (calls ++ [tc']) (executed ++ [tc']) rest
      | .error e =>
        execSteps client (i + 1) (raw ++ [(key, .dict [(pys "error", .str e)])])
          (calls ++ [tc']) executed rest

/-- `QueryRouter._execute_plan`. -/
def executePlan (plan : QueryPlan)
    (client : Nat → ToolCall → Except PyStr Value) : ExecResult :=
  execSteps client 0 [] [] [] plan.tool_calls

/-! ## Summaries (`summarize.py`) -/

/-- `collections.Counter` over strings: counts keyed in first-encounter
order (Python 3.7+ dict order). -/
def counterAdd (c : List (PyStr × Nat)) (k : PyStr) : List (PyStr × Nat) :=
  match c with
  | [] => [(k, 1)]
  | (k', n) :: rest =>
    if k' = k then (k', n + 1) :: rest else (k', n) :: counterAdd rest k

/-- Build a counter from a list. -/
def counterOf (l : List PyStr) : List (PyStr × Nat) := l.foldl counterAdd []

/-- `Counter.most_common(n)`: count-descending, ties in first-encounter
order (a stable sort, as in CPython). -/
def mostCommon (c : List (PyStr × Nat)) (n : Nat) : List (PyStr × Nat) :=
  (c.mergeSort (fun a b => b.2 ≤ a.2)).take n

/-- Total of all counts (`sum(counter.values())`). -/
def counterTotal (c : List (PyStr × Nat)) : Nat :=
  c.foldl (fun a kv => a + kv.2) 0

/-- `_format_name`. -/
def formatName (name : PyStr) : PyStr :=
  if name.isEmpty then []
  else
    let parts := pySplitWs (pyStrip name)
    if parts.length = 2 then name
    else if 2 < parts.length then parts.headD [] ++ pys " " ++ parts.getLastD []
    else name

/-- `_format_counter_summary(counter, category, top_n)`.  (`category` is
accepted and unused, exactly as in the source.) -/
def formatCounterSummary (counter : List (PyStr × Nat)) (category : PyStr)
    (top_n : Nat) : PyStr :=
  if counter.isEmpty then []
  else
    let total := counterTotal counter
    let most_common := mostCommon counter top_n
    if most_common.length = 1 then
      match most_common with
      | (item, count) :: _ =>
        if count = total then pys "all " ++ item
        else pyStrNat count ++ pys " " ++ item
      | [] => []
    else
      let parts := most_common.filterMap fun kv =>
        if !kv.1.isEmpty then some (pyStrNat kv.2 ++ pys " " ++ kv.1) else none
      if parts.length ≤ 2 then pyJoin (pys ", ") parts
      else
        let shown := parts.take 2
        let remaining := parts.length - 2
        if remaining = 1 then
          pyJoin (pys ", ") shown ++ pys ", " ++ parts.getD 2 []
        else
          pyJoin (pys ", ") shown ++ pys ", " ++ pyStrNat remaining ++ pys " others"

/-- `summarize_incidents`. -/
def summarize_incidents (incidents : List NormalizedIncident)
    (original_query : PyStr) : PyStr :=
  if incidents.isEmpty then pys "No incidents found matching your query."
  else
    let count := incidents.length
    let status_counts := counterOf (incidents.filterMap fun inc =>
      if !inc.status.isEmpty then some inc.status else none)
    let priority_counts := counterOf (incidents.filterMap fun inc =>
      match inc.priority with
      | some p => if !p.isEmpty then some p else none
      | none => none)
    let operator_counts := counterOf (incidents.filterMap fun inc =>
      match inc.operator with
      | some o => if !o.isEmpty then some o else none
      | none => none)
    let caller_counts := counterOf (incidents.filterMap fun inc =>
      match inc.caller with
      | some c => if !c.isEmpty then some c else none
      | none => none)
    let summary_parts :=
      [if count = 1 then pys "Found 1 incident"
       else pys "Found " ++ pyStrNat count ++ pys " incidents"]
    let summary_parts := summary_parts ++
      (if !status_counts.isEmpty then
        let status_info := formatCounterSummary status_counts (pys "status") 3
        if !status_info.isEmpty then [status_info] else []
      else [])
    let summary_parts := summary_parts ++
      (if !priority_counts.isEmpty then
        let high_priority :=
          counterTotal (priority_counts.filter fun kv =>
            !kv.1.isEmpty &&
              [pys "high", pys "critical", pys "urgent"].contains (pyLower kv.1))
        if 0 < high_priority then
          [if high_priority = 1 then pys "1 high priority"
           else pyStrNat high_priority ++ pys " high priority"]
        else []
      else [])
    let summary_parts := summary_parts ++
      (if !operator_counts.isEmpty then
        let assigned_count := counterTotal operator_counts
        (if 0 < assigned_count then
          [if assigned_count = 1 then pys "1 assigned"
           else pyStrNat assigned_count ++ pys " assigned"]
        else []) ++
        (match mostCommon operator_counts 1 with
         | (top_operator, top_count) :: _ =>
           if 1 < top_count && !top_operator.isEmpty then
             [pyStrNat top_count ++ pys " to " ++ formatName top_operator]
           else []
         | [] => [])   -- unreachable: guarded by the non-empty counter
      else [])
    let summary_parts := summary_parts ++
      (if caller_counts.length = 1 &&
          (caller_counts.filter fun kv => !kv.1.isEmpty).any
            (fun kv => containsSub (pyLower original_query) kv.1) then
        let caller_name := (caller_counts.headD ([], 0)).1
        if !caller_name.isEmpty then [pys "for " ++ formatName caller_name] else []
      else [])
    let summary_parts := summary_parts ++
      (if containsSub (pyLower original_query) (pys "recent") ||
          containsSub (pyLower original_query) (pys "last") then
        [pys "(recent)"]
      else if [pys "today", pys "yesterday"].any
          (fun w => containsSub (pyLower original_query) w) then
        [pys "(recent)"]
      else [])
    let summary :=
      if summary_parts.length ≤ 2 then pyJoin (pys " ") summary_parts
      else
        -- the source's index-tracking loop appends `", " + part` for every
        -- later part (its two branches are identical)
        match summary_parts with
        | [] => []
        | p :: rest => p ++ (rest.map fun q => pys ", " ++ q).flatten
    if summary.getLast? = some '.' then summary else summary ++ pys "."

/-- Python `s.split(" ")` (single-space separator, keeping empty fields),
with an optional `maxsplit`. -/
def pySplitSepAux (sep : Char) : PyStr → PyStr → Option Nat → List PyStr
  | [], acc, _ => [acc.reverse]
  | c :: t, acc, lim =>
    if c = sep && lim != some 0 then
      acc.reverse :: pySplitSepAux sep t [] (lim.map (· - 1))
    else
      pySplitSepAux sep t (c :: acc) lim

/-- `s.split(" ")`. -/
def pySplitSep (l : PyStr) (sep : Char) : List PyStr := pySplitSepAux sep l [] none

/-- `s.split(" ", m)`. -/
def pySplitSepMax (l : PyStr) (sep : Char) (m : Nat) : List PyStr :=
  pySplitSepAux sep l [] (some m)

/-- `summarize_person_lookup`.  The indexings `split(" ")[1]` and
`split(" ", 2)[2]` are guarded (`startswith("Found ")` forces at least two
fields, the length test forces the third), so the `getD` defaults are
unreachable. -/
def summarize_person_lookup (person_info : Option PersonInfo)
    (incidents : List NormalizedIncident) (original_query : PyStr) : PyStr :=
  match person_info with
  | none => pys "Person not found. " ++ summarize_incidents incidents original_query
  | some info =>
    let person_name := pyStrVal info.name
    if incidents.isEmpty then
      pys "Found " ++ person_name ++ pys " but no incidents match your criteria."
    else
      let incident_summary := summarize_incidents incidents original_query
      if (pys "Found ").isPrefixOf incident_summary then
        let count_part := (pySplitSep incident_summary ' ').getD 1 []
        let rest :=
          if 2 < (pySplitSep incident_summary ' ').length then
            (pySplitSepMax incident_summary ' ' 2).getD 2 []
          else []
        pyStrip (person_name ++ pys " has " ++ count_part ++ pys " incidents " ++ rest)
      else person_name ++ pys ": " ++ incident_summary

/-- `summarize_operator_lookup`. -/
def summarize_operator_lookup (operator_info : Option OperatorInfo)
    (incidents : List NormalizedIncident) (original_query : PyStr) : PyStr :=
  match operator_info with
  | none => pys "Operator not found. " ++ summarize_incidents incidents original_query
  | some info =>
    let operator_name := pyStrVal info.name
    if incidents.isEmpty then
      pys "Found " ++ operator_name ++
        pys " but no assigned incidents match your criteria."
    else
      let incident_summary := summarize_incidents incidents original_query
      if (pys "Found ").isPrefixOf incident_summary then
        let count_part := (pySplitSep incident_summary ' ').getD 1 []
        let rest :=
          if 2 < (pySplitSep incident_summary ' ').length then
            (pySplitSepMax incident_summary ' ' 2).getD 2 []
          else []
        pyStrip (operator_name ++ pys " is assigned " ++ count_part ++
          pys " incidents " ++ rest)
      else operator_name ++ pys ": " ++ incident_summary

/-- The `extra_info` dict of `QueryRouter._normalize_results`: its only
possible keys are `"person"` and `"operator"`, each set only to a
non-`None` normalized record. -/
structure ExtraInfo where
  person : Option PersonInfo := none
  operator : Option OperatorInfo := none

/-- `QueryRouter._generate_summary` (the `plan` parameter is accepted and
unused, as in the source).  The surrounding `try/except` fallback of the
source is unreachable in the model: the summarizers are total and their
only partial operations are the guarded indexings noted above. -/
def generate_summary (plan : QueryPlan) (extra_info : ExtraInfo)
    (incidents : List NormalizedIncident) (original_query : PyStr) : PyStr :=
  match extra_info.person with
  | some p => summarize_person_lookup (some p) incidents original_query
  | none =>
    match extra_info.operator with
    | some o => summarize_operator_lookup (some o) incidents original_query
    | none => summarize_incidents incidents original_query

/-- `markerFree s`: the payload marker does not occur in `s`. -/
def markerFree (s : PyStr) : Prop := hasSubstr s (pys "PLACEHOLDER") = false

/-- A payload value free of the marker (trivially so for ints). -/
def pvalMarkerFree : PVal → Prop
  | .s v => markerFree v
  | .n _ => True

/-- Every value of a payload is free of the marker. -/
def payloadMarkerFree (payload : List (PyStr × PVal)) : Prop :=
  ∀ kv ∈ payload, pvalMarkerFree kv.2

/-- The payload shapes the planner emits: either every value is marker
free, or the payload is the two-step ticket-fetch payload whose
`fiql_query` starts with the `caller.id`/`operator.id` placeholder clause
followed by a marker-free remainder. -/
def PayloadOk (payload : List (PyStr × PVal)) : Prop :=
  payloadMarkerFree payload ∨
  ∃ (pat rest : PyStr) (m : Nat),
    (pat = pys "caller.id==PLACEHOLDER" ∨ pat = pys "operator.id==PLACEHOLDER") ∧
    payload = [(pys "fiql_query", .s (pat ++ ';' :: rest)),
               (pys "page_size", .n m)] ∧
    markerFree rest

/-- The id fields that placeholder resolution can extract from a response
are marker free. -/
def respIdsMarkerFree (v : Value) : Prop :=
  (∀ info, normalizePersonResponse v = some info → markerFree (pyStrVal info.id)) ∧
  (∀ info, normalizeOperatorResponse v = some info → markerFree (pyStrVal info.id))

/-- Every recorded raw response has marker-free extractable ids. -/
def rawOk (raw : List (PyStr × Value)) : Prop :=
  ∀ kv ∈ raw, respIdsMarkerFree kv.2

/-- The clauses of a semicolon-joined FIQL AND chain (used to state the
claims about clause order). -/
def splitSemiGo (acc : PyStr) : PyStr → List PyStr
  | [] => [acc.reverse]
  | c :: t => if c = ';' then acc.reverse :: splitSemiGo [] t else splitSemiGo (c :: acc) t

/-- Split a FIQL string at its semicolons. -/
def splitSemi (s : PyStr) : List PyStr := splitSemiGo [] s

/-- A fixed stand-in for the clock-dependent `days_ago`, used to
instantiate universally quantified theorems in witnesses. -/
def dayStub : Nat → PyStr := fun _ => pys "2024-01-01T00:00:00Z"

/-- A default tool call (used only as the default of list indexing in
theorem statements). -/
def tcDefault : ToolCall := { name := [], payload := [] }

/-- An adversarial external client: the first call (the person lookup) is
answered with a record whose `id` field is the literal string
`PLACEHOLDER`; later calls return an empty list. -/
def badClient : Nat → ToolCall → Except PyStr Value := fun i _ =>
  if i = 0 then .ok (.dict [(pys "id", .str (pys "PLACEHOLDER"))])
  else .ok (.list [])

/-- A benign external client answering every call with an empty list. -/
def stubClient : Nat → ToolCall → Except PyStr Value := fun _ _ => .ok (.list [])

/-- The person-lookup call issued for the query `tickets for John Doe`
(used to state concrete executor traces). -/
def c5LookupCall : ToolCall :=
  { name := pys "topdesk_get_person_by_query"
    payload := [(pys "fiql_query", PVal.s (pys "firstName=='john';surname=='doe'"))] }

/-- The resolved ticket-fetch call issued for `tickets for John Doe` when
the person lookup answered with the adversarial id `PLACEHOLDER`. -/
def c5BadCall : ToolCall :=
  { name := pys "topdesk_get_incidents_by_fiql_query"
    payload := [(pys "fiql_query", PVal.s
        (pys "caller.id=='PLACEHOLDER';creationDate=ge=2024-01-01T00:00:00Z")),
      (pys "page_size", PVal.n 5)] }

/-- The resolved ticket-fetch call issued for `tickets for John Doe` when
no person id could be found in the previous responses. -/
def c5StubCall : ToolCall :=
  { name := pys "topdesk_get_incidents_by_fiql_query"
    payload := [(pys "fiql_query", PVal.s
        (pys "caller.id=='NOTFOUND';creationDate=ge=2024-01-01T00:00:00Z")),
      (pys "page_size", PVal.n 5)] }

/-- Character-wise expansion map. -/
def escMap (f : Char → PyStr) (l : PyStr) : PyStr := (l.map f).flatten

/-- The combined escaping of `quote_value`: backslash doubling followed by
quote escaping, character by character. -/
def escQV (x : Char) : PyStr :=
  if x = '\\' then ['\\', '\\'] else if x = '\'' then ['\\', '\''] else [x]

/-- Un-escaping step 1 of the round-trip claim: undoing `\'` keeps doubled
backslashes and restores bare quotes. -/
def escQVKeepBS (x : Char) : PyStr :=
  if x = '\\' then ['\\', '\\'] else if x = '\'' then ['\''] else [x]

/-- The inverse of `quote_value`'s escaping, as described by the claim:
strip the surrounding single quotes, undo the escaped quote, then undo the
escaped backslash. -/
def unquote_value (s : PyStr) : PyStr :=
  pyReplace (pyReplace ((s.drop 1).dropLast) (pys "\\'") (pys "'"))
    (pys "\\\\") (pys "\\")

/-! ## Lemma kit: substrings, replacement, character membership -/

theorem pyReplaceF_nil (old new : PyStr) :
    ∀ fuel, pyReplaceF old new fuel [] = [] := by
  intro fuel
  cases fuel <;> rfl

theorem pyReplaceF_irrel {old new : PyStr} :
    ∀ (f₁ f₂ : Nat) (s : PyStr), s.length ≤ f₁ → s.length ≤ f₂ →
      pyReplaceF old new f₁ s = pyReplaceF old new f₂ s := by
  intro f₁
  induction f₁ with
  | zero =>
    intro f₂ s hs₁ _
    have : s = [] := List.length_eq_zero.mp (Nat.le_zero.mp hs₁)
    subst this
    rw [pyReplaceF_nil, pyReplaceF_nil]
  | succ f₁ ih =>
    intro f₂ s hs₁ hs₂
    cases s with
    | nil => rw [pyReplaceF_nil, pyReplaceF_nil]
    | cons c t =>
      cases f₂ with
      | zero => simp at hs₂
      | succ f₂ =>
        show (if old ≠ [] ∧ old.isPrefixOf (c :: t) then
            new ++ pyReplaceF old new f₁ ((c :: t).drop old.length)
          else c :: pyReplaceF old new f₁ t) =
          (if old ≠ [] ∧ old.isPrefixOf (c :: t) then
            new ++ pyReplaceF old new f₂ ((c :: t).drop old.length)
          else c :: pyReplaceF old new f₂ t)
        by_cases hcond : old ≠ [] ∧ old.isPrefixOf (c :: t)
        · rw [if_pos hcond, if_pos hcond]
          have hlen : ((c :: t).drop old.length).length ≤ t.length := by
            have : old.length ≠ 0 := by
              intro habs
              exact hcond.1 (List.length_eq_zero.mp habs)
            simp only [List.length_drop, List.length_cons]
            omega
          simp only [List.length_cons] at hs₁ hs₂
          rw [ih f₂ _ (by omega) (by omega)]
        · rw [if_neg hcond, if_neg hcond]
          simp only [List.length_cons] at hs₁ hs₂
          rw [ih f₂ t (by omega) (by omega)]

theorem pyReplace_nil (old new : PyStr) : pyReplace [] old new = [] := rfl

/-- The one-step unfolding of `pyReplace` on a non-empty subject. -/
theorem pyReplace_cons (c : Char) (t old new : PyStr) :
    pyReplace (c :: t) old new =
      if old ≠ [] ∧ old.isPrefixOf (c :: t) then
        new ++ pyReplace ((c :: t).drop old.length) old new
      else c :: pyReplace t old new := by
  show (if old ≠ [] ∧ old.isPrefixOf (c :: t) then
      new ++ pyReplaceF old new t.length ((c :: t).drop old.length)
    else c :: pyReplaceF old new t.length t) = _
  by_cases hcond : old ≠ [] ∧ old.isPrefixOf (c :: t)
  · rw [if_pos hcond, if_pos hcond]
    unfold pyReplace
    have hlen : ((c :: t).drop old.length).length ≤ t.length := by
      have : old.length ≠ 0 := by
        intro habs
        exact hcond.1 (List.length_eq_zero.mp habs)
      simp only [List.length_drop, List.length_cons]
      omega
    rw [pyReplaceF_irrel _ _ _ hlen le_rfl]
  · rw [if_neg hcond, if_neg hcond]
    rfl


theorem isPrefixOf_iff_exists {pat l : PyStr} :
    pat.isPrefixOf l = true ↔ ∃ w, l = pat ++ w := by
  rw [List.isPrefixOf_iff_prefix]
  constructor
  · rintro ⟨w, rfl⟩
    exact ⟨w, rfl⟩
  · rintro ⟨w, rfl⟩
    exact ⟨w, rfl⟩

theorem hasSubstr_of_isPrefixOf {l pat : PyStr} (h : pat.isPrefixOf l = true) :
    hasSubstr l pat = true := by
  cases l with
  | nil =>
    cases pat with
    | nil => simp [hasSubstr]
    | cons p ps => simp [List.isPrefixOf] at h
  | cons c t => simp [hasSubstr, h]

theorem hasSubstr_iff {l pat : PyStr} :
    hasSubstr l pat = true ↔ ∃ u w, l = u ++ pat ++ w := by
  induction l with
  | nil =>
    simp only [hasSubstr]
    constructor
    · intro h
      rw [List.isEmpty_iff] at h
      exact ⟨[], [], by simp [h]⟩
    · rintro ⟨u, w, he⟩
      have he' := he.symm
      simp only [List.append_eq_nil, List.append_assoc] at he'
      rw [List.isEmpty_iff]
      exact he'.2.1
  | cons c t ih =>
    simp only [hasSubstr, Bool.or_eq_true]
    constructor
    · rintro (hp | hs)
      · obtain ⟨w, hw⟩ := isPrefixOf_iff_exists.mp hp
        exact ⟨[], w, by simp [hw]⟩
      · obtain ⟨u, w, hw⟩ := ih.mp hs
        exact ⟨c :: u, w, by simp [hw]⟩
    · rintro ⟨u, w, he⟩
      cases u with
      | nil =>
        left
        exact isPrefixOf_iff_exists.mpr ⟨w, by simpa using he⟩
      | cons c' u' =>
        right
        have he' := he
        simp only [List.cons_append, List.cons.injEq, List.append_assoc] at he'
        exact ih.mpr ⟨u', w, by simp [he'.2]⟩

theorem mem_of_hasSubstr {l pat : PyStr} {c : Char}
    (h : hasSubstr l pat = true) (hc : c ∈ pat) : c ∈ l := by
  obtain ⟨u, w, rfl⟩ := hasSubstr_iff.mp h
  simp [hc]

theorem hasSubstr_mono {s pat : PyStr} (A B : PyStr)
    (h : hasSubstr s pat = true) : hasSubstr (A ++ s ++ B) pat = true := by
  obtain ⟨u, w, rfl⟩ := hasSubstr_iff.mp h
  exact hasSubstr_iff.mpr ⟨A ++ u, w ++ B, by simp⟩

theorem hasSubstr_dropLeft {t a b : PyStr}
    (h : hasSubstr t (a ++ b) = true) : hasSubstr t b = true := by
  obtain ⟨u, w, rfl⟩ := hasSubstr_iff.mp h
  exact hasSubstr_iff.mpr ⟨u ++ a, w, by simp⟩

theorem markerFree_of_not_P {s : PyStr} (h : 'P' ∉ s) : markerFree s := by
  unfold markerFree
  rw [Bool.eq_false_iff]
  intro habs
  exact h (mem_of_hasSubstr habs (by decide))

/-- A prefix of `x ++ q :: y` that avoids `q` is already a prefix of `x`. -/
theorem isPrefixOf_through {q : Char} :
    ∀ {pat x y : PyStr}, pat.isPrefixOf (x ++ q :: y) = true → q ∉ pat →
      pat.isPrefixOf x = true := by
  intro pat
  induction pat with
  | nil =>
    intro x y _ _
    cases x <;> simp [List.isPrefixOf]
  | cons p pt ih =>
    intro x y h hq
    cases x with
    | nil =>
      simp only [List.nil_append, List.isPrefixOf, Bool.and_eq_true, beq_iff_eq] at h
      exact absurd (by rw [← h.1]; exact List.mem_cons_self p pt) hq
    | cons a xt =>
      simp only [List.cons_append, List.isPrefixOf, Bool.and_eq_true] at h ⊢
      refine ⟨h.1, ih h.2 ?_⟩
      intro hmem
      exact hq (List.mem_cons_of_mem _ hmem)

/-- An occurrence of a `q`-free pattern in `x ++ q :: y` lies inside `x` or
inside `y`. -/
theorem hasSubstr_sep_split {pat : PyStr} {q : Char} (hq : q ∉ pat) :
    ∀ {x y : PyStr}, hasSubstr (x ++ q :: y) pat = true →
      hasSubstr x pat = true ∨ hasSubstr y pat = true := by
  intro x
  induction x with
  | nil =>
    intro y h
    simp only [List.nil_append, hasSubstr, Bool.or_eq_true] at h
    rcases h with hp | hs
    · cases pat with
      | nil => left; simp [hasSubstr]
      | cons p pt =>
        simp only [List.isPrefixOf, Bool.and_eq_true, beq_iff_eq] at hp
        exact absurd (by rw [← hp.1]; exact List.mem_cons_self p pt) hq
    · right; exact hs
  | cons a xt ih =>
    intro y h
    simp only [List.cons_append, hasSubstr, Bool.or_eq_true] at h
    rcases h with hp | hs
    · left
      have hpx : pat.isPrefixOf (a :: xt) = true := by
        refine @isPrefixOf_through q pat (a :: xt) y ?_ hq
        simpa using hp
      exact hasSubstr_of_isPrefixOf hpx
    · rcases ih hs with h1 | h2
      · left
        simp [hasSubstr, h1]
      · right; exact h2

/-- An occurrence of `p :: ps` in `x ++ y` either starts in `x` (so `p ∈ x`)
or lies inside `y`. -/
theorem hasSubstr_head_split {p : Char} {ps : PyStr} :
    ∀ {x y : PyStr}, hasSubstr (x ++ y) (p :: ps) = true →
      p ∈ x ∨ hasSubstr y (p :: ps) = true := by
  intro x
  induction x with
  | nil =>
    intro y h
    right
    simpa using h
  | cons a xt ih =>
    intro y h
    simp only [List.cons_append, hasSubstr, Bool.or_eq_true] at h
    rcases h with hp | hs
    · left
      simp only [List.isPrefixOf, Bool.and_eq_true, beq_iff_eq] at hp
      rw [hp.1]
      exact List.mem_cons_self a xt
    · rcases ih hs with h1 | h2
      · left; exact List.mem_cons_of_mem _ h1
      · right; exact h2

/-- Replacement is the identity when the pattern does not occur. -/
theorem pyReplace_of_not_hasSubstr :
    ∀ {s pat rep : PyStr}, hasSubstr s pat = false → pyReplace s pat rep = s := by
  intro s
  induction s with
  | nil => intro pat rep _; rfl
  | cons c t ih =>
    intro pat rep h
    simp only [hasSubstr, Bool.or_eq_false_iff] at h
    rw [pyReplace_cons]
    rw [if_neg]
    · rw [ih h.2]
    · rintro ⟨-, hpre⟩
      rw [h.1] at hpre
      exact Bool.false_ne_true hpre

/-- Replacing a pattern that sits at the front of the string, with no
further occurrence behind it. -/
theorem pyReplace_front {pat rest rep : PyStr} (hpat : pat ≠ [])
    (hrest : hasSubstr rest pat = false) :
    pyReplace (pat ++ rest) pat rep = rep ++ rest := by
  cases pat with
  | nil => exact absurd rfl hpat
  | cons p pt =>
    rw [List.cons_append, pyReplace_cons, if_pos]
    · have hdrop : ((p :: (pt ++ rest)).drop (p :: pt).length) = rest := by
        have : (p :: (pt ++ rest)) = (p :: pt) ++ rest := by simp
        rw [this, List.drop_left]
      rw [hdrop, pyReplace_of_not_hasSubstr hrest]
    · refine ⟨by simp, ?_⟩
      apply isPrefixOf_iff_exists.mpr
      exact ⟨rest, by simp⟩

theorem mem_pyReplace_aux {c : Char} :
    ∀ (n : Nat) (s pat rep : PyStr), s.length ≤ n →
      c ∈ pyReplace s pat rep → c ∈ s ∨ c ∈ rep := by
  intro n
  induction n with
  | zero =>
    intro s pat rep hlen h
    have : s = [] := List.length_eq_zero.mp (Nat.le_zero.mp hlen)
    subst this
    rw [pyReplace_nil] at h
    simp at h
  | succ n ih =>
    intro s pat rep hlen h
    cases s with
    | nil =>
      rw [pyReplace_nil] at h
      simp at h
    | cons a t =>
      rw [pyReplace_cons] at h
      split at h
      · rename_i hcond
        rcases List.mem_append.mp h with h1 | h2
        · right; exact h1
        · have hlen2 : ((a :: t).drop pat.length).length ≤ n := by
            have hp : pat.length ≠ 0 := by
              intro habs
              exact hcond.1 (List.length_eq_zero.mp habs)
            simp only [List.length_drop, List.length_cons] at *
            omega
          rcases ih _ pat rep hlen2 h2 with h3 | h4
          · left; exact List.mem_of_mem_drop h3
          · right; exact h4
      · rcases List.mem_cons.mp h with h1 | h2
        · left; simp [h1]
        · have hlen2 : t.length ≤ n := by simp at hlen; omega
          rcases ih t pat rep hlen2 h2 with h3 | h4
          · left; exact List.mem_cons_of_mem _ h3
          · right; exact h4

/-- Characters of a replacement result come from the subject or the
replacement string. -/
theorem mem_pyReplace {c : Char} {s pat rep : PyStr}
    (h : c ∈ pyReplace s pat rep) : c ∈ s ∨ c ∈ rep :=
  mem_pyReplace_aux s.length s pat rep le_rfl h

theorem mem_listSlice {c : Char} {l : PyStr} {a b : Nat}
    (h : c ∈ listSlice l a b) : c ∈ l := by
  unfold listSlice at h
  exact List.mem_of_mem_drop (List.mem_of_mem_take h)

theorem mem_of_mem_dropWhile {p : Char → Bool} {l : List Char} {c : Char}
    (h : c ∈ l.dropWhile p) : c ∈ l :=
  (List.dropWhile_sublist _).subset h

theorem mem_of_mem_takeWhile {p : Char → Bool} {l : List Char} {c : Char}
    (h : c ∈ l.takeWhile p) : c ∈ l :=
  (List.takeWhile_sublist _).subset h

theorem mem_pyStrip {c : Char} {l : PyStr} (h : c ∈ pyStrip l) : c ∈ l := by
  unfold pyStrip at h
  rw [List.mem_reverse] at h
  have h1 := mem_of_mem_dropWhile h
  rw [List.mem_reverse] at h1
  exact mem_of_mem_dropWhile h1

theorem mem_pySplitWsF {c : Char} :
    ∀ (fuel : Nat) (l p : PyStr), p ∈ pySplitWsF fuel l → c ∈ p → c ∈ l := by
  intro fuel
  induction fuel with
  | zero =>
    intro l p hp _
    simp [pySplitWsF] at hp
  | succ fuel ih =>
    intro l p hp hc
    rw [pySplitWsF] at hp
    split at hp
    · simp at hp
    · rename_i c0 t hdrop
      rcases List.mem_cons.mp hp with h1 | h2
      · subst h1
        rcases List.mem_cons.mp hc with h1' | h2'
        · subst h1'
          have : c ∈ l.dropWhile pyIsSpace := by
            rw [hdrop]; exact List.mem_cons_self _ _
          exact mem_of_mem_dropWhile this
        · have : c ∈ l.dropWhile pyIsSpace := by
            rw [hdrop]
            exact List.mem_cons_of_mem _ (mem_of_mem_takeWhile h2')
          exact mem_of_mem_dropWhile this
      · have h3 : c ∈ t.dropWhile (fun x => !pyIsSpace x) := ih _ _ h2 hc
        have h4 : c ∈ l.dropWhile pyIsSpace := by
          rw [hdrop]
          exact List.mem_cons_of_mem _ (mem_of_mem_dropWhile h3)
        exact mem_of_mem_dropWhile h4

theorem mem_pySplitWs {c : Char} {l p : PyStr}
    (hp : p ∈ pySplitWs l) (hc : c ∈ p) : c ∈ l :=
  mem_pySplitWsF (l.length + 1) l p hp hc

theorem mem_pyJoin {c : Char} {sep : PyStr} :
    ∀ {parts : List PyStr}, c ∈ pyJoin sep parts →
      c ∈ sep ∨ ∃ p ∈ parts, c ∈ p := by
  intro parts
  induction parts with
  | nil => intro h; simp [pyJoin] at h
  | cons p ps ih =>
    intro h
    cases ps with
    | nil =>
      right
      exact ⟨p, List.mem_cons_self _ _, by simpa [pyJoin] using h⟩
    | cons q qs =>
      simp only [pyJoin, List.append_assoc, List.mem_append] at h
      rcases h with h1 | h2 | h3
      · right; exact ⟨p, List.mem_cons_self _ _, h1⟩
      · left; exact h2
      · rcases ih h3 with h4 | ⟨r, hr, hcr⟩
        · left; exact h4
        · right; exact ⟨r, List.mem_cons_of_mem _ hr, hcr⟩

theorem mem_quote_value {c : Char} {v : PyStr} (h : c ∈ quote_value v) :
    c ∈ v ∨ c = '\'' ∨ c = '\\' := by
  unfold quote_value at h
  split at h
  · rw [show pys "''" = ['\'', '\''] from rfl] at h
    rcases List.mem_cons.mp h with h1 | h1
    · right; left; exact h1
    · rcases List.mem_cons.mp h1 with h2 | h2
      · right; left; exact h2
      · simp at h2
  · rw [show pys "'" = ['\''] from rfl] at h
    simp only [List.mem_append, List.mem_singleton] at h
    rcases h with (h1 | h2) | h3
    · right; left; exact h1
    · rcases mem_pyReplace h2 with h4 | h5
      · rcases mem_pyReplace h4 with h6 | h7
        · left; exact h6
        · rw [show pys "\\\\" = ['\\', '\\'] from rfl] at h7
          rcases List.mem_cons.mp h7 with h8 | h8
          · right; right; exact h8
          · rcases List.mem_cons.mp h8 with h9 | h9
            · right; right; exact h9
            · simp at h9
      · rw [show pys "\\'" = ['\\', '\''] from rfl] at h5
        rcases List.mem_cons.mp h5 with h8 | h8
        · right; right; exact h8
        · rcases List.mem_cons.mp h8 with h9 | h9
          · right; left; exact h9
          · simp at h9
    · right; left; exact h3

theorem pyLowerChar_ne_P (c : Char) : pyLowerChar c ≠ 'P' := by
  intro h
  unfold pyLowerChar at h
  cases hf : upperLower.find? (fun kv => kv.1 = c) with
  | none =>
    rw [hf] at h
    simp at h
    subst h
    exact absurd hf (by decide)
  | some kv =>
    rw [hf] at h
    simp at h
    have hmem := List.mem_of_find?_eq_some hf
    have hall : ∀ x ∈ upperLower, x.2 ≠ 'P' := by decide
    exact hall kv hmem h

/-- No character of a lower-cased string is `'P'`. -/
theorem not_P_mem_pyLower (l : PyStr) : 'P' ∉ pyLower l := by
  intro h
  unfold pyLower at h
  obtain ⟨c, -, hc⟩ := List.mem_map.mp h
  exact pyLowerChar_ne_P c hc

/-! ## The escaping algebra of `quote_value` (claims about `fiql.py`) -/

theorem escMap_nil (f : Char → PyStr) : escMap f [] = [] := rfl

theorem escMap_cons (f : Char → PyStr) (c : Char) (t : PyStr) :
    escMap f (c :: t) = f c ++ escMap f t := by
  simp [escMap]

/-- A single-character `str.replace` is a character-wise expansion. -/
theorem pyReplace_single (c : Char) (rep : PyStr) :
    ∀ l : PyStr, pyReplace l [c] rep =
      escMap (fun x => if x = c then rep else [x]) l := by
  intro l
  induction l with
  | nil => simp [pyReplace_nil, escMap]
  | cons a t ih =>
    rw [pyReplace_cons]
    split
    · rename_i hcond
      have hac : c = a := by
        have := hcond.2
        simp [List.isPrefixOf] at this
        exact this
      subst hac
      simp only [List.length_singleton, List.drop_succ_cons, List.drop_zero]
      rw [ih, escMap_cons, if_pos rfl]
    · rename_i hcond
      have hac : a ≠ c := by
        intro habs
        subst habs
        exact hcond ⟨by simp, by simp [List.isPrefixOf]⟩
      rw [ih, escMap_cons, if_neg hac]
      simp

theorem escMap_escMap (f₁ f₂ : Char → PyStr) :
    ∀ l : PyStr, escMap f₂ (escMap f₁ l) = escMap (fun c => escMap f₂ (f₁ c)) l := by
  intro l
  induction l with
  | nil => simp [escMap]
  | cons a t ih =>
    rw [escMap_cons, escMap_cons]
    rw [show escMap f₂ (f₁ a ++ escMap f₁ t) = escMap f₂ (f₁ a) ++ escMap f₂ (escMap f₁ t) by
      simp [escMap]]
    rw [ih]

theorem quote_value_eq {v : PyStr} (hv : v ≠ []) :
    quote_value v = '\'' :: (escMap escQV v ++ ['\'']) := by
  unfold quote_value
  rw [if_neg (by simpa using hv)]
  dsimp only
  rw [show pys "\\" = ['\\'] from rfl, show pys "\\\\" = ['\\', '\\'] from rfl,
      show pys "'" = ['\''] from rfl, show pys "\\'" = ['\\', '\''] from rfl]
  rw [pyReplace_single, pyReplace_single, escMap_escMap]
  have hfun : (fun c => escMap (fun x => if x = '\'' then ['\\', '\''] else [x])
      ((fun x => if x = '\\' then ['\\', '\\'] else [x]) c)) = escQV := by
    funext c
    by_cases h1 : c = '\\'
    · subst h1; rfl
    · by_cases h2 : c = '\''
      · subst h2; rfl
      · simp only [escQV, if_neg h1, if_neg h2]
        simp [escMap_cons, escMap_nil, if_neg h2]
  rw [hfun]
  simp

/-- After `escQV`, the expansion never starts with a bare quote. -/
theorem escMap_escQV_head_ne_quote :
    ∀ (v : PyStr) (h : Char) (t : PyStr), escMap escQV v = h :: t → h ≠ '\'' := by
  intro v
  cases v with
  | nil => intro h t habs; simp [escMap] at habs
  | cons c w =>
    intro h t habs
    rw [escMap_cons] at habs
    by_cases h1 : c = '\\'
    · subst h1
      simp [escQV] at habs
      rw [← habs.1]
      decide
    · by_cases h2 : c = '\''
      · subst h2
        simp [escQV] at habs
        rw [← habs.1]
        decide
      · simp [escQV, if_neg h1, if_neg h2] at habs
        rw [← habs.1]
        exact h2

theorem unescape_quotes (v : PyStr) :
    pyReplace (escMap escQV v) ['\\', '\''] ['\''] = escMap escQVKeepBS v := by
  induction v with
  | nil => simp [escMap, pyReplace_nil]
  | cons c w ih =>
    rw [escMap_cons, escMap_cons]
    by_cases h1 : c = '\\'
    · subst h1
      rw [show escQV '\\' = ['\\', '\\'] from rfl,
          show escQVKeepBS '\\' = ['\\', '\\'] from rfl]
      rw [show (['\\', '\\'] ++ escMap escQV w) = '\\' :: ('\\' :: escMap escQV w) by simp]
      rw [pyReplace_cons]
      rw [if_neg (by
        rintro ⟨-, hpre⟩
        simp [List.isPrefixOf] at hpre)]
      rw [pyReplace_cons]
      rw [if_neg (by
        rintro ⟨-, hpre⟩
        simp only [List.isPrefixOf, Bool.and_eq_true, beq_iff_eq] at hpre
        rcases hpre with ⟨-, hpre2⟩
        cases he : escMap escQV w with
        | nil => rw [he] at hpre2; simp [List.isPrefixOf] at hpre2
        | cons h t =>
          rw [he] at hpre2
          simp only [List.isPrefixOf, Bool.and_eq_true, beq_iff_eq] at hpre2
          exact escMap_escQV_head_ne_quote w h t he hpre2.1.symm)]
      rw [ih]
      simp
    · by_cases h2 : c = '\''
      · subst h2
        rw [show escQV '\'' = ['\\', '\''] from rfl,
            show escQVKeepBS '\'' = ['\''] from rfl]
        rw [show (['\\', '\''] ++ escMap escQV w) = '\\' :: ('\'' :: escMap escQV w) by simp]
        rw [pyReplace_cons]
        rw [if_pos ⟨by simp, by simp [List.isPrefixOf]⟩]
        rw [show (('\\' :: ('\'' :: escMap escQV w)).drop (['\\', '\''].length)) =
              escMap escQV w by simp]
        rw [ih]
        try simp
      · rw [show escQV c = [c] by simp [escQV, h1, h2],
            show escQVKeepBS c = [c] by simp [escQVKeepBS, h1, h2]]
        rw [show ([c] ++ escMap escQV w) = c :: escMap escQV w by simp]
        rw [pyReplace_cons]
        rw [if_neg (by
          rintro ⟨-, hpre⟩
          simp only [List.isPrefixOf, Bool.and_eq_true, beq_iff_eq] at hpre
          exact h1 hpre.1.symm)]
        rw [ih]
        simp

/-- Un-escaping step 2: undoing `\\` restores the original string. -/
theorem unescape_backslashes (v : PyStr) :
    pyReplace (escMap escQVKeepBS v) ['\\', '\\'] ['\\'] = v := by
  induction v with
  | nil => simp [escMap, pyReplace_nil]
  | cons c w ih =>
    rw [escMap_cons]
    by_cases h1 : c = '\\'
    · subst h1
      rw [show escQVKeepBS '\\' = ['\\', '\\'] from rfl]
      rw [show (['\\', '\\'] ++ escMap escQVKeepBS w) =
            '\\' :: ('\\' :: escMap escQVKeepBS w) by simp]
      rw [pyReplace_cons]
      rw [if_pos ⟨by simp, by simp [List.isPrefixOf]⟩]
      rw [show (('\\' :: ('\\' :: escMap escQVKeepBS w)).drop (['\\', '\\'].length)) =
            escMap escQVKeepBS w by simp]
      rw [ih]
      try simp
    · have hsingle : escQVKeepBS c = [c] := by
        by_cases h2 : c = '\''
        · subst h2; rfl
        · simp [escQVKeepBS, h1, h2]
      rw [hsingle]
      rw [show ([c] ++ escMap escQVKeepBS w) = c :: escMap escQVKeepBS w by simp]
      rw [pyReplace_cons]
      rw [if_neg (by
        rintro ⟨-, hpre⟩
        simp only [List.isPrefixOf, Bool.and_eq_true, beq_iff_eq] at hpre
        exact h1 hpre.1.symm)]
      rw [ih]

/-- Quote counting through the escaping: `escQV` preserves the number of
single quotes. -/
theorem count_quote_escMap_escQV (v : PyStr) :
    (escMap escQV v).count '\'' = v.count '\'' := by
  induction v with
  | nil => rfl
  | cons c w ih =>
    rw [escMap_cons, List.count_append, ih]
    by_cases h1 : c = '\\'
    · subst h1
      rw [show (escQV '\\').count '\'' = 0 from rfl, List.count_cons]
      simp
    · by_cases h2 : c = '\''
      · subst h2
        rw [show (escQV '\'').count '\'' = 1 from rfl, List.count_cons]
        simp [Nat.add_comm]
      · rw [show escQV c = [c] by simp [escQV, h1, h2]]
        rw [List.count_cons, List.count_cons]
        simp [List.count_nil, Nat.add_comm]

/-- `quote_value` adds exactly the two wrapping quotes. -/
theorem count_quote_quote_value (v : PyStr) :
    (quote_value v).count '\'' = v.count '\'' + 2 := by
  by_cases hv : v = []
  · subst hv; rfl
  · rw [quote_value_eq hv]
    rw [List.count_cons, List.count_append, count_quote_escMap_escQV]
    simp
    try omega

/-- An odd number of single quotes makes `validate_fiql` reject,
regardless of the rest of the string. -/
theorem validate_fiql_of_odd_quotes {q : PyStr} (h : q.count '\'' % 2 = 1) :
    validate_fiql q = false := by
  unfold validate_fiql
  split
  · rfl
  · have hc : ((q.count '\'') % 2 != 0) = true := by rw [h]; rfl
    rw [hc]
    rfl

/-- Claim C8: for every non-empty `value`, `quote_value` round-trips:
stripping the outer quotes and undoing the quote escape, then the
backslash escape (in that order, as the claim prescribes) reproduces
`value` exactly — including embedded quotes, backslashes and non-ASCII
characters, over which `value` ranges without restriction. -/
theorem claim_c8_quote_roundtrip (value : PyStr) (hv : value ≠ []) :
    unquote_value (quote_value value) = value := by
  unfold unquote_value
  rw [quote_value_eq hv]
  rw [show (('\'' :: (escMap escQV value ++ ['\''])).drop 1) =
        escMap escQV value ++ ['\''] from rfl]
  rw [List.dropLast_concat]
  rw [show pys "\\'" = ['\\', '\''] from rfl, show pys "'" = ['\''] from rfl,
      show pys "\\\\" = ['\\', '\\'] from rfl, show pys "\\" = ['\\'] from rfl]
  rw [unescape_quotes, unescape_backslashes]

/-- Witness for C8 at a value containing a quote, a backslash and a
non-ASCII character. -/
theorem claim_c8_quote_roundtrip_witness :
    (pys "O'Brien \\ Ünïcødé" ≠ []) ∧
      unquote_value (quote_value (pys "O'Brien \\ Ünïcødé")) =
        pys "O'Brien \\ Ünïcødé" :=
  ⟨by decide, claim_c8_quote_roundtrip (pys "O'Brien \\ Ünïcødé") (by decide)⟩

/-- Claim C9: `validate_fiql` rejects the empty query, accepts
`field=='value'`, and rejects every query with an odd number of single
quotes regardless of which operator tokens occur in it. -/
theorem claim_c9_validate_fiql :
    validate_fiql (pys "") = false ∧
    validate_fiql (pys "field=='value'") = true ∧
    ∀ q : PyStr, q.count '\'' % 2 = 1 → validate_fiql q = false :=
  ⟨rfl, rfl, fun _ h => validate_fiql_of_odd_quotes h⟩

/-- Witness for C9's universally quantified part at a query containing an
operator token and an odd quote count. -/
theorem claim_c9_validate_fiql_witness :
    (pys "a=='x").count '\'' % 2 = 1 ∧ validate_fiql (pys "a=='x") = false :=
  ⟨by decide, claim_c9_validate_fiql.2.2 (pys "a=='x") (by decide)⟩

/-- Counterexample to claim C10 as stated: for the field name `f'`
(which itself contains a single quote) and the value `O'Brien` (odd quote
count), the built clause passes `validate_fiql`, because the field's own
quote restores even parity. -/
theorem claim_c10_counterexample :
    (pys "O'Brien").count '\'' % 2 = 1 ∧
      validate_fiql (equals (pys "f'") (pys "O'Brien")) = true :=
  ⟨by decide, rfl⟩

/-- Claim C10, amended: for every field name with an even number of single
quotes (in particular every quote-free field name) and every value with an
odd number of single quotes, the builder's own output fails the builder's
own validator. -/
theorem claim_c10_amended (field value : PyStr)
    (hf : field.count '\'' % 2 = 0) (hv : value.count '\'' % 2 = 1) :
    validate_fiql (equals field value) = false := by
  apply validate_fiql_of_odd_quotes
  unfold equals
  rw [List.count_append, List.count_append, count_quote_quote_value]
  rw [show (pys "==").count '\'' = 0 from rfl]
  omega

/-- Witness for the amended C10 at the quote-free field `field` and the
value `O'Brien`. -/
theorem claim_c10_amended_witness :
    (pys "field").count '\'' % 2 = 0 ∧ (pys "O'Brien").count '\'' % 2 = 1 ∧
      validate_fiql (equals (pys "field") (pys "O'Brien")) = false :=
  ⟨by decide, by decide,
    claim_c10_amended (pys "field") (pys "O'Brien") (by decide) (by decide)⟩

/-! ## Evaluation lemmas for `and_join` on clock-dependent parts -/

theorem mem_dropWhile_of_not {p : Char → Bool} {x : Char} :
    ∀ {l : List Char}, x ∈ l → p x = false → x ∈ l.dropWhile p := by
  intro l
  induction l with
  | nil => intro h _; simp at h
  | cons a t ih =>
    intro h hx
    by_cases ha : p a = true
    · rw [List.dropWhile_cons_of_pos ha]
      rcases List.mem_cons.mp h with h1 | h2
      · subst h1
        rw [ha] at hx
        exact absurd hx (by simp)
      · exact ih h2 hx
    · rw [List.dropWhile_cons_of_neg ha]
      exact h

/-- A string containing a non-whitespace character strips to something
non-empty (the `part.strip()` truthiness test of `and_join`). -/
theorem pyStrip_not_empty {l : PyStr} {x : Char}
    (hx : x ∈ l) (hw : pyIsSpace x = false) : (pyStrip l).isEmpty = false := by
  have h1 : x ∈ l.dropWhile pyIsSpace := mem_dropWhile_of_not hx hw
  have h2 : x ∈ (l.dropWhile pyIsSpace).reverse := List.mem_reverse.mpr h1
  have h3 : x ∈ (l.dropWhile pyIsSpace).reverse.dropWhile pyIsSpace :=
    mem_dropWhile_of_not h2 hw
  have h4 : x ∈ pyStrip l := by
    unfold pyStrip
    exact List.mem_reverse.mpr h3
  rw [List.isEmpty_eq_false_iff_exists_mem]
  exact ⟨x, h4⟩

/-- `and_join` on two kept parts. -/
theorem and_join_pair (p q : PyStr)
    (hp1 : p.isEmpty = false) (hp2 : (pyStrip p).isEmpty = false)
    (hq1 : q.isEmpty = false) (hq2 : (pyStrip q).isEmpty = false) :
    and_join [p, q] = p ++ pys ";" ++ q := by
  unfold and_join
  rw [show List.filter (fun r => !r.isEmpty && !(pyStrip r).isEmpty) [p, q] = [p, q] by
    simp [List.filter, hp1, hp2, hq1, hq2]]
  rfl

/-! ## Claims C1–C4: planner behaviour on the specification's queries -/

/-- Claim C1 concerns a code bug: this theorem records the actual
behaviour of `plan_query` at the claim's two inputs.  Because the planner
lower-cases the query before extraction while `validate_incident_number`
matches the case-sensitive `^I-\d{6}-\d{3}$`, the well-formed request is
rejected with a clarification (no tool call is ever emitted); and for the
`INVALID` request the id regex never matches, so the planner falls through
to a generic one-call FIQL plan instead of the clarification the claim
(and the repository's own tests) expect. -/
theorem claim_c1_actual_behavior (d : Nat → PyStr) :
    ((plan_query d (pys "show complete details for incident I-240101-001") 5).clarify =
        some (pys "Invalid incident number format: i-240101-001. Expected format: I-YYMMDD-NNN") ∧
      (plan_query d (pys "show complete details for incident I-240101-001") 5).tool_calls = []) ∧
    ((plan_query d (pys "show complete details for incident INVALID") 5).clarify = none ∧
      ((plan_query d (pys "show complete details for incident INVALID") 5).tool_calls.map
          ToolCall.name) = [pys "topdesk_get_incidents_by_fiql_query"]) :=
  ⟨⟨rfl, rfl⟩, rfl, rfl⟩

/-- Claim C2 concerns a code bug: this theorem records the actual
behaviour of `plan_query` at "tickets for Sander" (default
`max_results = 5`): the single name matches the first person pattern, so
the planner emits a two-step person plan with a single-name warning and no
clarification, while the claim (and the repository's own
`test_clarification_needed`) expects a clarify plan with zero tool
calls. -/
theorem claim_c2_actual_behavior (d : Nat → PyStr) :
    (plan_query d (pys "tickets for Sander") 5).clarify = none ∧
    ((plan_query d (pys "tickets for Sander") 5).tool_calls.map ToolCall.name) =
      [pys "topdesk_get_person_by_query", pys "topdesk_get_incidents_by_fiql_query"] ∧
    (plan_query d (pys "tickets for Sander") 5).warnings =
      [pys "Single name 'sander' may match multiple people"] :=
  ⟨rfl, rfl, rfl⟩

/-- Claim C3: planning "tickets for John Doe" with the default
`max_results = 5` yields exactly two tool calls — first the person lookup,
then the FIQL ticket fetch — and the second call's `fiql_query` contains
the literal marker `PLACEHOLDER`, with `caller.id==PLACEHOLDER` as the
first clause of the semicolon-joined AND chain.  `d` ranges over all
possible `days_ago` renderings, so the property is clock-independent. -/
theorem claim_c3_person_plan (d : Nat → PyStr) :
    ((plan_query d (pys "tickets for John Doe") 5).tool_calls.map ToolCall.name) =
      [pys "topdesk_get_person_by_query", pys "topdesk_get_incidents_by_fiql_query"] ∧
    ∃ fq : PyStr,
      payloadLookup
        ((plan_query d (pys "tickets for John Doe") 5).tool_calls.getD 1 tcDefault).payload
        (pys "fiql_query") = some (.s fq) ∧
      containsSub fq (pys "PLACEHOLDER") = true ∧
      (splitSemi fq).head? = some (pys "caller.id==PLACEHOLDER") :=
  ⟨rfl, _, rfl, rfl, rfl⟩

/-- Claim C4: planning "show me recent changes" yields a single-call
category plan whose `fiql_query` is exactly the `category.name=='Change'`
clause AND-joined with the `creationDate` lower bound rendered from the
60-day default window (`d 60`). -/
theorem claim_c4_category_plan (d : Nat → PyStr) :
    ((plan_query d (pys "show me recent changes") 5).tool_calls.map ToolCall.name) =
      [pys "topdesk_get_incidents_by_fiql_query"] ∧
    payloadLookup
      ((plan_query d (pys "show me recent changes") 5).tool_calls.getD 0 tcDefault).payload
      (pys "fiql_query") =
      some (.s (pys "category.name=='Change';creationDate=ge=" ++ d 60)) := by
  refine ⟨rfl, ?_⟩
  have h0 : payloadLookup
      ((plan_query d (pys "show me recent changes") 5).tool_calls.getD 0 tcDefault).payload
      (pys "fiql_query") =
      some (.s (and_join [pys "category.name=='Change'",
                          pys "creationDate=ge=" ++ d 60])) := rfl
  rw [h0]
  have hp1 : (pys "category.name=='Change'").isEmpty = false := by decide
  have hp2 : (pyStrip (pys "category.name=='Change'")).isEmpty = false := by decide
  have hq1 : (pys "creationDate=ge=" ++ d 60).isEmpty = false := rfl
  have hq2 : (pyStrip (pys "creationDate=ge=" ++ d 60)).isEmpty = false :=
    @pyStrip_not_empty (pys "creationDate=ge=" ++ d 60) 'c'
      (List.mem_append_left _ (by decide)) (by decide)
  rw [and_join_pair _ _ hp1 hp2 hq1 hq2]
  rfl

/-! ## Claim C7: planner safety -/

theorem plan_person_query_clarify (d : Nat → PyStr) (n : PyStr)
    (sf : Option PyStr) (tf : Option Nat) (m : Nat) (q : PyStr) :
    (plan_person_query d n sf tf m q).clarify = none := rfl

theorem plan_operator_query_clarify (d : Nat → PyStr) (n : PyStr)
    (sf : Option PyStr) (tf : Option Nat) (m : Nat) (q : PyStr) :
    (plan_operator_query d n sf tf m q).clarify = none := rfl

theorem plan_category_query_clarify (d : Nat → PyStr) (cat : PyStr)
    (sf : Option PyStr) (pf : Option (List PyStr)) (tf : Option Nat)
    (m : Nat) (q : PyStr) :
    (plan_category_query d cat sf pf tf m q).clarify = none := rfl

theorem plan_search_query_clarify (q : PyStr) (tf : Option Nat) (m : Nat) :
    (plan_search_query q tf m).clarify = none := rfl

theorem plan_fiql_query_clarify (d : Nat → PyStr) (q : PyStr)
    (sf : Option PyStr) (pf : Option (List PyStr)) (tf : Option Nat) (m : Nat) :
    (plan_fiql_query d q sf pf tf m).clarify = none := rfl

theorem plan_complete_incident_safety (iid q : PyStr) :
    (plan_complete_incident iid q).clarify.isSome = true →
      (plan_complete_incident iid q).tool_calls = [] ∧
      (plan_complete_incident iid q).steps = [] := by
  unfold plan_complete_incident
  split
  · intro _
    exact ⟨rfl, rfl⟩
  · intro h
    simp at h

/-- Claim C7: `plan_query` is a total function (the model never raises:
the only fallible operation, `validate_incident_number`, is caught inside
`plan_complete_incident` and degraded to a clarification), and every plan
that carries a clarification carries zero tool calls and zero steps —
ambiguous text and malformed incident identifiers degrade to a
clarification rather than a propagated error. -/
theorem claim_c7_planner_never_raises (d : Nat → PyStr) (query : PyStr)
    (max_results : Nat)
    (h : (plan_query d query max_results).clarify.isSome = true) :
    (plan_query d query max_results).tool_calls = [] ∧
    (plan_query d query max_results).steps = [] := by
  unfold plan_query at h ⊢
  dsimp only at h ⊢
  split_ifs at h ⊢ with h1 h2 h3 h4 h5 h6
  · exact plan_complete_incident_safety _ _ h
  · rw [plan_person_query_clarify] at h
    simp at h
  · rw [plan_operator_query_clarify] at h
    simp at h
  · rw [plan_category_query_clarify] at h
    simp at h
  · rw [plan_search_query_clarify] at h
    simp at h
  · rw [plan_fiql_query_clarify] at h
    simp at h
  · exact ⟨rfl, rfl⟩

/-- Witness for C7 at a query that produces a clarification plan. -/
theorem claim_c7_planner_never_raises_witness :
    (plan_query dayStub (pys "to be or not") 5).clarify.isSome = true ∧
    (plan_query dayStub (pys "to be or not") 5).tool_calls = [] ∧
    (plan_query dayStub (pys "to be or not") 5).steps = [] :=
  ⟨rfl, claim_c7_planner_never_raises dayStub (pys "to be or not") 5 rfl⟩

/-! ## Claim C6: summaries on zero normalized results -/

/-- Counterexample to claim C6 as stated: when a person lookup resolved
(here normalized from a response with id `person-123` and display name
`John Doe`) and zero incidents were normalized, summary generation returns
the person-specific message, not the claimed exact string
`"No incidents found matching your query."` — and the plan carried no
clarification. -/
theorem claim_c6_counterexample :
    (plan_query dayStub (pys "tickets for John Doe") 5).clarify = none ∧
    generate_summary (plan_query dayStub (pys "tickets for John Doe") 5)
      { person := normalizePersonResponse
          (.dict [(pys "id", .str (pys "person-123")),
                  (pys "dynamicName", .str (pys "John Doe"))]) }
      [] (pys "tickets for John Doe") =
      pys "Found John Doe but no incidents match your criteria." ∧
    pys "Found John Doe but no incidents match your criteria." ≠
      pys "No incidents found matching your query." :=
  ⟨rfl, rfl, by decide⟩

/-- Claim C6, amended: summary generation is a total function (it cannot
raise on empty input), and with zero normalized results it returns the
entity-specific no-results message when a person or operator was resolved,
and exactly `"No incidents found matching your query."` otherwise.  (When
the plan carries a clarification, `process_query` short-circuits before
summary generation and surfaces the clarification text itself.) -/
theorem claim_c6_amended (plan : QueryPlan) (extra : ExtraInfo)
    (incidents : List NormalizedIncident) (query : PyStr)
    (h : incidents = []) :
    generate_summary plan extra incidents query =
      (match extra.person with
       | some p =>
         pys "Found " ++ pyStrVal p.name ++
           pys " but no incidents match your criteria."
       | none =>
         match extra.operator with
         | some o =>
           pys "Found " ++ pyStrVal o.name ++
             pys " but no assigned incidents match your criteria."
         | none => pys "No incidents found matching your query.") := by
  subst h
  unfold generate_summary
  cases hp : extra.person with
  | some p => rfl
  | none =>
    cases ho : extra.operator with
    | some o => rfl
    | none => rfl

/-- Witness for the amended C6 in the no-entity case, with zero results. -/
theorem claim_c6_amended_witness :
    generate_summary (plan_clarification (pys "x")) {} [] (pys "q") =
      pys "No incidents found matching your query." :=
  claim_c6_amended (plan_clarification (pys "x")) {} [] (pys "q") rfl

/-! ## Marker-freeness algebra (support for claim C5) -/

theorem markerFree_nil : markerFree [] := by
  unfold markerFree
  decide

theorem markerFree_append_left {lit y : PyStr} (hlit : 'P' ∉ lit)
    (hy : markerFree y) : markerFree (lit ++ y) := by
  have hy' : hasSubstr y (pys "PLACEHOLDER") = false := hy
  unfold markerFree
  rw [Bool.eq_false_iff]
  intro habs
  rcases hasSubstr_head_split
      (show hasSubstr (lit ++ y) ('P' :: pys "LACEHOLDER") = true from habs) with
    h1 | h2
  · exact hlit h1
  · have h2' : hasSubstr y (pys "PLACEHOLDER") = true := h2
    rw [hy'] at h2'
    exact absurd h2' (by decide)

theorem markerFree_cons_semi {y : PyStr} (hy : markerFree y) :
    markerFree (';' :: y) :=
  @markerFree_append_left [';'] y (by decide) hy

theorem markerFree_sep {x y : PyStr} {q : Char} (hq : q ∉ pys "PLACEHOLDER")
    (hx : markerFree x) (hy : markerFree y) : markerFree (x ++ q :: y) := by
  have hx' : hasSubstr x (pys "PLACEHOLDER") = false := hx
  have hy' : hasSubstr y (pys "PLACEHOLDER") = false := hy
  unfold markerFree
  rw [Bool.eq_false_iff]
  intro habs
  rcases hasSubstr_sep_split hq habs with h1 | h2
  · rw [hx'] at h1; exact absurd h1 (by decide)
  · rw [hy'] at h2; exact absurd h2 (by decide)

theorem markerFree_pyJoin_semi :
    ∀ (parts : List PyStr), (∀ p ∈ parts, markerFree p) →
      markerFree (pyJoin (pys ";") parts) := by
  intro parts
  induction parts with
  | nil => intro _; exact markerFree_nil
  | cons p ps ih =>
    intro h
    cases ps with
    | nil => exact h p (List.mem_cons_self _ _)
    | cons q qs =>
      have hjoin : pyJoin (pys ";") (p :: q :: qs) =
          p ++ ';' :: pyJoin (pys ";") (q :: qs) := by
        show p ++ pys ";" ++ pyJoin (pys ";") (q :: qs) = _
        rw [List.append_assoc]
        rfl
      rw [hjoin]
      exact markerFree_sep (by decide) (h p (List.mem_cons_self _ _))
        (ih (fun r hr => h r (List.mem_cons_of_mem _ hr)))

theorem markerFree_and_join {parts : List PyStr}
    (h : ∀ p ∈ parts, markerFree p) : markerFree (and_join parts) := by
  unfold and_join
  exact markerFree_pyJoin_semi _ (fun p hp => h p (List.mem_of_mem_filter hp))

theorem not_P_quote_value {v : PyStr} (hv : 'P' ∉ v) : 'P' ∉ quote_value v := by
  intro habs
  rcases mem_quote_value habs with h1 | h2 | h3
  · exact hv h1
  · exact absurd h2 (by decide)
  · exact absurd h3 (by decide)

theorem not_P_append3 {a b c : PyStr} (ha : 'P' ∉ a) (hb : 'P' ∉ b)
    (hc : 'P' ∉ c) : 'P' ∉ a ++ b ++ c := by
  intro h
  simp only [List.mem_append] at h
  rcases h with (h | h) | h
  · exact ha h
  · exact hb h
  · exact hc h

theorem markerFree_equals {f v : PyStr} (hf : 'P' ∉ f) (hv : 'P' ∉ v) :
    markerFree (equals f v) :=
  markerFree_of_not_P (not_P_append3 hf (by decide) (not_P_quote_value hv))

theorem markerFree_starts_with {f v : PyStr} (hf : 'P' ∉ f) (hv : 'P' ∉ v) :
    markerFree (starts_with f v) :=
  markerFree_of_not_P (not_P_append3 hf (by decide) (not_P_quote_value hv))

theorem markerFree_in_list {field : PyStr} {vals : List PyStr}
    (hf : 'P' ∉ field) (hv : ∀ v ∈ vals, 'P' ∉ v) :
    markerFree (in_list field vals) := by
  unfold in_list
  split
  · exact markerFree_nil
  · apply markerFree_of_not_P
    intro habs
    simp only [List.mem_append] at habs
    rcases habs with ((h | h) | h) | h
    · exact hf h
    · exact absurd h (by decide)
    · rcases mem_pyJoin h with hsep | ⟨p, hp, hcp⟩
      · exact absurd hsep (by decide)
      · obtain ⟨v, hv', rfl⟩ := List.mem_map.mp hp
        exact not_P_quote_value (hv v hv') hcp
    · exact absurd h (by decide)

theorem mem_optClause {o : Option PyStr} {mk : PyStr → PyStr} {p : PyStr}
    (h : p ∈ optClause o mk) : ∃ s, o = some s ∧ p = mk s := by
  unfold optClause at h
  split at h
  · rename_i hc
    cases o with
    | none => exact absurd hc (by decide)
    | some s =>
      refine ⟨s, rfl, ?_⟩
      simpa using h
  · simp at h

theorem markerFree_build_person_query {fn ln em : Option PyStr}
    (hf : ∀ s, fn = some s → 'P' ∉ s)
    (hl : ∀ s, ln = some s → 'P' ∉ s)
    (he : ∀ s, em = some s → 'P' ∉ s) :
    markerFree (build_person_query fn ln em) := by
  unfold build_person_query
  apply markerFree_and_join
  intro p hp
  simp only [List.mem_append] at hp
  rcases hp with (h | h) | h
  · obtain ⟨s, hs, rfl⟩ := mem_optClause h
    exact markerFree_equals (by decide) (hf s hs)
  · obtain ⟨s, hs, rfl⟩ := mem_optClause h
    exact markerFree_equals (by decide) (hl s hs)
  · obtain ⟨s, hs, rfl⟩ := mem_optClause h
    exact markerFree_equals (by decide) (he s hs)

theorem markerFree_build_operator_query {name : PyStr} (hn : 'P' ∉ name)
    (e : Bool) : markerFree (build_operator_query (some name) e) := by
  unfold build_operator_query
  split
  · exact markerFree_nil
  · split
    · exact markerFree_equals (by decide) hn
    · exact markerFree_starts_with (by decide) hn

/-! ## Characters of extracted fragments come from the query (claim C5) -/

theorem mem_groupStrD {inp : PyStr} {res : Nat × Nat × Caps} {k : Nat} {c : Char}
    (h : c ∈ (groupStr inp res k).getD []) : c ∈ inp := by
  unfold groupStr at h
  split at h
  · exact mem_listSlice (by simpa using h)
  · split at h
    · exact mem_listSlice (by simpa using h)
    · simp at h

theorem extractPersonGo_subset {q n : PyStr} :
    ∀ rs : List RE, extractPersonGo q rs = some n → ∀ c ∈ n, c ∈ q := by
  intro rs
  induction rs with
  | nil => intro h; exact absurd h (by simp [extractPersonGo])
  | cons r rs ih =>
    intro h c hc
    rw [extractPersonGo] at h
    cases hs : reSearch r q with
    | none =>
      rw [hs] at h
      exact ih h c hc
    | some res =>
      rw [hs] at h
      dsimp only at h
      split at h
      · split at h
        · have hn := Option.some.inj h
          subst hn
          exact mem_groupStrD (mem_pyStrip hc)
        · exact ih h c hc
      · exact ih h c hc

theorem extractOperatorGo_subset {q n : PyStr} :
    ∀ rs : List RE, extractOperatorGo q rs = some n → ∀ c ∈ n, c ∈ q := by
  intro rs
  induction rs with
  | nil => intro h; exact absurd h (by simp [extractOperatorGo])
  | cons r rs ih =>
    intro h c hc
    rw [extractOperatorGo] at h
    cases hs : reSearch r q with
    | none =>
      rw [hs] at h
      exact ih h c hc
    | some res =>
      rw [hs] at h
      dsimp only at h
      split at h
      · have hn := Option.some.inj h
        subst hn
        exact mem_groupStrD (mem_pyStrip hc)
      · exact ih h c hc

theorem extractIncidentGo_subset {q n : PyStr} :
    ∀ rs : List RE, extractIncidentGo q rs = some n → ∀ c ∈ n, c ∈ q := by
  intro rs
  induction rs with
  | nil => intro h; exact absurd h (by simp [extractIncidentGo])
  | cons r rs ih =>
    intro h c hc
    rw [extractIncidentGo] at h
    cases hs : reSearch r q with
    | none =>
      rw [hs] at h
      exact ih h c hc
    | some res =>
      rw [hs] at h
      dsimp only at h
      have hn := Option.some.inj h
      subst hn
      exact mem_groupStrD hc

theorem extractCategoryGo_eq {q cat : PyStr} :
    ∀ rs : List RE, extractCategoryGo q rs = some cat → cat = pys "Change" := by
  intro rs
  induction rs with
  | nil => intro h; exact absurd h (by simp [extractCategoryGo])
  | cons r rs ih =>
    intro h
    rw [extractCategoryGo] at h
    cases hs : reSearch r q with
    | none =>
      rw [hs] at h
      exact ih h
    | some res =>
      rw [hs] at h
      dsimp only at h
      split at h
      · exact (Option.some.inj h).symm
      · exact ih h

theorem priorityOf_mem {q : PyStr} {r : RE} {p : PyStr} (h : p ∈ priorityOf q r) :
    p = pys "Critical" ∨ p = pys "High" ∨ p = pys "Medium" ∨ p = pys "Low" := by
  unfold priorityOf at h
  cases hs : reSearch r q with
  | none =>
    rw [hs] at h
    simp at h
  | some res =>
    rw [hs] at h
    dsimp only at h
    split_ifs at h
    · left; simpa using h
    · right; left; simpa using h
    · right; right; left; simpa using h
    · right; right; right; simpa using h
    · simp at h

theorem extract_priority_mem {q : PyStr} {pl : List PyStr}
    (h : extract_priority q = some pl) :
    ∀ p ∈ pl, p = pys "Critical" ∨ p = pys "High" ∨ p = pys "Medium" ∨
      p = pys "Low" := by
  unfold extract_priority at h
  dsimp only at h
  split at h
  · exact absurd h (by simp)
  · intro p hp
    rw [← Option.some.inj h] at hp
    obtain ⟨l, hl, hpl⟩ := List.mem_flatten.mp hp
    obtain ⟨r, -, rfl⟩ := List.mem_map.mp hl
    exact priorityOf_mem hpl

theorem mem_headD {l : List PyStr} {c : Char} (h : c ∈ l.headD []) :
    ∃ p ∈ l, c ∈ p := by
  cases l with
  | nil => simp at h
  | cons a t => exact ⟨a, List.mem_cons_self _ _, h⟩

theorem mem_getLastD_general {c : Char} :
    ∀ (l : List PyStr) (dflt : PyStr), c ∈ l.getLastD dflt →
      c ∈ dflt ∨ ∃ p ∈ l, c ∈ p := by
  intro l
  induction l with
  | nil => intro dflt h; left; exact h
  | cons a t ih =>
    intro dflt h
    rw [List.getLastD_cons] at h
    rcases ih a h with h1 | ⟨p, hp, hcp⟩
    · right; exact ⟨a, List.mem_cons_self _ _, h1⟩
    · right; exact ⟨p, List.mem_cons_of_mem _ hp, hcp⟩

theorem mem_getLastD_nil {l : List PyStr} {c : Char} (h : c ∈ l.getLastD []) :
    ∃ p ∈ l, c ∈ p := by
  rcases mem_getLastD_general l [] h with h1 | h2
  · simp at h1
  · exact h2

/-! ## The planner only emits `PayloadOk` payloads (claim C5) -/

theorem plan_person_query_payloads (d : Nat → PyStr) (n : PyStr)
    (sf : Option PyStr) (tf : Option Nat) (m : Nat) (q : PyStr)
    (hd : ∀ k, markerFree (d k)) (hn : 'P' ∉ n) :
    ∀ tc ∈ (plan_person_query d n sf tf m q).tool_calls, PayloadOk tc.payload := by
  have hiq : markerFree (and_join
      ((if sf = some (pys "open") then [pys "status!=Closed"] else []) ++
       [pys "creationDate=ge=" ++ d (pyOrNat tf 30)])) := by
    apply markerFree_and_join
    intro p hp
    simp only [List.mem_append] at hp
    rcases hp with h | h
    · split at h
      · have hp' : p = pys "status!=Closed" := by simpa using h
        subst hp'
        exact markerFree_of_not_P (by decide)
      · simp at h
    · have hp' : p = pys "creationDate=ge=" ++ d (pyOrNat tf 30) := by simpa using h
      subst hp'
      exact markerFree_append_left (by decide) (hd _)
  intro tc htc
  unfold plan_person_query at htc
  dsimp only at htc
  rcases List.mem_cons.mp htc with h1 | h2
  · subst h1
    left
    intro kv hkv
    rcases List.mem_cons.mp hkv with hk | hk
    · subst hk
      show markerFree (if 2 ≤ (pySplitWs n).length then
        build_person_query (some ((pySplitWs n).headD []))
          (some ((pySplitWs n).getLastD [])) none
        else build_person_query none (some n) none)
      split
      · apply markerFree_build_person_query
        · intro s hs hP
          rw [← Option.some.inj hs] at hP
          obtain ⟨p, hp, hcp⟩ := mem_headD hP
          exact hn (mem_pySplitWs hp hcp)
        · intro s hs hP
          rw [← Option.some.inj hs] at hP
          obtain ⟨p, hp, hcp⟩ := mem_getLastD_nil hP
          exact hn (mem_pySplitWs hp hcp)
        · intro s hs
          exact absurd hs (by simp)
      · apply markerFree_build_person_query
        · intro s hs
          exact absurd hs (by simp)
        · intro s hs
          rw [← Option.some.inj hs]
          exact hn
        · intro s hs
          exact absurd hs (by simp)
    · simp at hk
  · rw [List.mem_singleton] at h2
    subst h2
    right
    exact ⟨pys "caller.id==PLACEHOLDER", _, m, Or.inl rfl, rfl, hiq⟩

theorem plan_operator_query_payloads (d : Nat → PyStr) (n : PyStr)
    (sf : Option PyStr) (tf : Option Nat) (m : Nat) (q : PyStr)
    (hd : ∀ k, markerFree (d k)) (hn : 'P' ∉ n) :
    ∀ tc ∈ (plan_operator_query d n sf tf m q).tool_calls, PayloadOk tc.payload := by
  have hiq : markerFree (and_join
      ((if sf = some (pys "open") then [pys "status!=Closed"] else []) ++
       [pys "creationDate=ge=" ++ d (pyOrNat tf 30)])) := by
    apply markerFree_and_join
    intro p hp
    simp only [List.mem_append] at hp
    rcases hp with h | h
    · split at h
      · have hp' : p = pys "status!=Closed" := by simpa using h
        subst hp'
        exact markerFree_of_not_P (by decide)
      · simp at h
    · have hp' : p = pys "creationDate=ge=" ++ d (pyOrNat tf 30) := by simpa using h
      subst hp'
      exact markerFree_append_left (by decide) (hd _)
  intro tc htc
  unfold plan_operator_query at htc
  dsimp only at htc
  rcases List.mem_cons.mp htc with h1 | h2
  · subst h1
    left
    intro kv hkv
    rcases List.mem_cons.mp hkv with hk | hk
    · subst hk
      exact markerFree_build_operator_query hn true
    · simp at hk
  · rw [List.mem_singleton] at h2
    subst h2
    right
    exact ⟨pys "operator.id==PLACEHOLDER", _, m, Or.inr rfl, rfl, hiq⟩

theorem plan_category_query_payloads (d : Nat → PyStr) (cat : PyStr)
    (sf : Option PyStr) (pf : Option (List PyStr)) (tf : Option Nat)
    (m : Nat) (q : PyStr) (hd : ∀ k, markerFree (d k))
    (hcat : cat = pys "Change") (hpf : ∀ p ∈ pf.getD [], 'P' ∉ p) :
    ∀ tc ∈ (plan_category_query d cat sf pf tf m q).tool_calls,
      PayloadOk tc.payload := by
  intro tc htc
  unfold plan_category_query at htc
  dsimp only at htc
  rw [List.mem_singleton] at htc
  subst htc
  left
  intro kv hkv
  rcases List.mem_cons.mp hkv with hk | hk
  · subst hk
    show markerFree (and_join _)
    apply markerFree_and_join
    intro p hp
    simp only [List.mem_append] at hp
    rcases hp with ((h | h) | h) | h
    · have hp' : p = pys "category.name=='" ++ cat ++ pys "'" := by simpa using h
      subst hp'
      subst hcat
      exact markerFree_of_not_P (by decide)
    · split at h
      · have hp' : p = pys "status!=Closed" := by simpa using h
        subst hp'
        exact markerFree_of_not_P (by decide)
      · simp at h
    · split at h
      · have hp' : p = in_list (pys "priority.name") (pf.getD []) := by simpa using h
        subst hp'
        exact markerFree_in_list (by decide) hpf
      · simp at h
    · have hp' : p = pys "creationDate=ge=" ++ d (pyOrNat tf 60) := by simpa using h
      subst hp'
      exact markerFree_append_left (by decide) (hd _)
  · rcases List.mem_cons.mp hk with hk' | hk'
    · subst hk'
      trivial
    · simp at hk'

theorem plan_search_query_payloads (q : PyStr) (tf : Option Nat) (m : Nat)
    (hq : 'P' ∉ q) :
    ∀ tc ∈ (plan_search_query q tf m).tool_calls, PayloadOk tc.payload := by
  intro tc htc
  unfold plan_search_query at htc
  dsimp only at htc
  rw [List.mem_singleton] at htc
  subst htc
  left
  intro kv hkv
  rcases List.mem_cons.mp hkv with hk | hk
  · subst hk
    exact markerFree_of_not_P hq
  · rcases List.mem_cons.mp hk with hk' | hk'
    · subst hk'
      trivial
    · simp at hk'

theorem plan_fiql_query_payloads (d : Nat → PyStr) (q : PyStr)
    (sf : Option PyStr) (pf : Option (List PyStr)) (tf : Option Nat) (m : Nat)
    (hd : ∀ k, markerFree (d k)) (hpf : ∀ p ∈ pf.getD [], 'P' ∉ p) :
    ∀ tc ∈ (plan_fiql_query d q sf pf tf m).tool_calls, PayloadOk tc.payload := by
  intro tc htc
  unfold plan_fiql_query at htc
  dsimp only at htc
  rw [List.mem_singleton] at htc
  subst htc
  left
  intro kv hkv
  rcases List.mem_cons.mp hkv with hk | hk
  · subst hk
    show markerFree (and_join _)
    apply markerFree_and_join
    intro p hp
    simp only [List.mem_append] at hp
    rcases hp with (h | h) | h
    · split at h
      · have hp' : p = pys "status!=Closed" := by simpa using h
        subst hp'
        exact markerFree_of_not_P (by decide)
      · simp at h
    · split at h
      · have hp' : p = in_list (pys "priority.name") (pf.getD []) := by simpa using h
        subst hp'
        exact markerFree_in_list (by decide) hpf
      · simp at h
    · have hp' : p = pys "creationDate=ge=" ++ d (pyOrNat tf 30) := by simpa using h
      subst hp'
      exact markerFree_append_left (by decide) (hd _)
  · rcases List.mem_cons.mp hk with hk' | hk'
    · subst hk'
      trivial
    · simp at hk'

theorem plan_complete_incident_payloads (iid q : PyStr) (hiid : 'P' ∉ iid) :
    ∀ tc ∈ (plan_complete_incident iid q).tool_calls, PayloadOk tc.payload := by
  intro tc htc
  unfold plan_complete_incident at htc
  split at htc
  · simp at htc
  · rw [List.mem_singleton] at htc
    subst htc
    left
    intro kv hkv
    rcases List.mem_cons.mp hkv with hk | hk
    · subst hk
      exact markerFree_of_not_P hiid
    · simp at hk

theorem plan_query_payloads (d : Nat → PyStr) (q0 : PyStr) (m : Nat)
    (hd : ∀ k, markerFree (d k)) :
    ∀ tc ∈ (plan_query d q0 m).tool_calls, PayloadOk tc.payload := by
  have hq : 'P' ∉ pyStrip (pyLower q0) :=
    fun h => not_P_mem_pyLower q0 (mem_pyStrip h)
  have hpf : ∀ p ∈ (extract_priority (pyStrip (pyLower q0))).getD [], 'P' ∉ p := by
    intro p hp
    cases hx : extract_priority (pyStrip (pyLower q0)) with
    | none =>
      rw [hx] at hp
      simp at hp
    | some pl =>
      rw [hx] at hp
      simp only [Option.getD_some] at hp
      rcases extract_priority_mem hx p hp with h | h | h | h <;> subst h <;> decide
  intro tc htc
  unfold plan_query at htc
  dsimp only at htc
  split_ifs at htc with h1 h2 h3 h4 h5 h6
  · refine plan_complete_incident_payloads _ _ ?_ tc htc
    intro hP
    cases hx : extract_incident_id (pyStrip (pyLower q0)) with
    | none =>
      rw [hx] at hP
      simp at hP
    | some i =>
      rw [hx] at hP
      simp only [Option.getD_some] at hP
      exact hq (extractIncidentGo_subset incident_id_patterns hx 'P' hP)
  · refine plan_person_query_payloads d _ _ _ m _ hd ?_ tc htc
    intro hP
    cases hx : extract_person_name (pyStrip (pyLower q0)) with
    | none =>
      rw [hx] at hP
      simp at hP
    | some nm =>
      rw [hx] at hP
      simp only [Option.getD_some] at hP
      exact hq (extractPersonGo_subset person_patterns hx 'P' hP)
  · refine plan_operator_query_payloads d _ _ _ m _ hd ?_ tc htc
    intro hP
    cases hx : extract_operator_name (pyStrip (pyLower q0)) with
    | none =>
      rw [hx] at hP
      simp at hP
    | some nm =>
      rw [hx] at hP
      simp only [Option.getD_some] at hP
      exact hq (extractOperatorGo_subset operator_patterns hx 'P' hP)
  · refine plan_category_query_payloads d _ _ _ _ m _ hd ?_ hpf tc htc
    cases hx : extract_category (pyStrip (pyLower q0)) with
    | none =>
      rw [hx] at h4
      exact absurd h4 (by decide)
    | some ccat =>
      simpa using extractCategoryGo_eq category_patterns hx
  · exact plan_search_query_payloads _ _ m hq tc htc
  · exact plan_fiql_query_payloads d _ _ _ _ m hd hpf tc htc
  · exact absurd htc (by simp [plan_clarification])

/-! ## Placeholder resolution preserves marker-freeness (claim C5) -/

theorem payloadLookup_mem {k : PyStr} {v : PVal} :
    ∀ {payload : List (PyStr × PVal)}, payloadLookup payload k = some v →
      ∃ k', (k', v) ∈ payload := by
  intro payload
  induction payload with
  | nil => intro h; exact absurd h (by simp [payloadLookup])
  | cons kv rest ih =>
    intro h
    obtain ⟨k', v'⟩ := kv
    rw [payloadLookup] at h
    split at h
    · exact ⟨k', by rw [← Option.some.inj h]; exact List.mem_cons_self _ _⟩
    · obtain ⟨k'', hk⟩ := ih h
      exact ⟨k'', List.mem_cons_of_mem _ hk⟩

theorem payloadSet_fiql (x : PyStr) (m : Nat) (v : PVal) :
    payloadSet [(pys "fiql_query", PVal.s x), (pys "page_size", PVal.n m)]
      (pys "fiql_query") v =
      [(pys "fiql_query", v), (pys "page_size", PVal.n m)] := rfl

theorem findPersonId_markerFree :
    ∀ {raw : List (PyStr × Value)}, rawOk raw →
      ∀ v, findPersonId raw = some v → markerFree (pyStrVal v) := by
  intro raw
  induction raw with
  | nil => intro _ v h; exact absurd h (by simp [findPersonId])
  | cons kv rest ih =>
    intro hraw v h
    obtain ⟨k, val⟩ := kv
    have hrest : rawOk rest := fun kv' hkv' => hraw kv' (List.mem_cons_of_mem _ hkv')
    rw [findPersonId] at h
    split at h
    · split at h
      · rename_i info heq
        split at h
        · have hv := Option.some.inj h
          rw [← hv]
          exact (hraw (k, val) (List.mem_cons_self _ _)).1 info heq
        · exact ih hrest v h
      · exact ih hrest v h
    · exact ih hrest v h

theorem findOperatorId_markerFree :
    ∀ {raw : List (PyStr × Value)}, rawOk raw →
      ∀ v, findOperatorId raw = some v → markerFree (pyStrVal v) := by
  intro raw
  induction raw with
  | nil => intro _ v h; exact absurd h (by simp [findOperatorId])
  | cons kv rest ih =>
    intro hraw v h
    obtain ⟨k, val⟩ := kv
    have hrest : rawOk rest := fun kv' hkv' => hraw kv' (List.mem_cons_of_mem _ hkv')
    rw [findOperatorId] at h
    split at h
    · split at h
      · rename_i info heq
        split at h
        · have hv := Option.some.inj h
          rw [← hv]
          exact (hraw (k, val) (List.mem_cons_self _ _)).2 info heq
        · exact ih hrest v h
      · exact ih hrest v h
    · exact ih hrest v h

theorem respIdsMarkerFree_errorDict (e : PyStr) :
    respIdsMarkerFree (.dict [(pys "error", .str e)]) := by
  constructor
  · intro info h
    rw [show normalizePersonResponse (.dict [(pys "error", Value.str e)]) = none
      from rfl] at h
    exact Option.noConfusion h
  · intro info h
    rw [show normalizeOperatorResponse (.dict [(pys "error", Value.str e)]) = none
      from rfl] at h
    exact Option.noConfusion h

theorem respIdsMarkerFree_listNil : respIdsMarkerFree (.list []) := by
  constructor
  · intro info h
    rw [show normalizePersonResponse (.list []) = none from rfl] at h
    exact Option.noConfusion h
  · intro info h
    rw [show normalizeOperatorResponse (.list []) = none from rfl] at h
    exact Option.noConfusion h

theorem resolvePlaceholder_markerFree {tc : ToolCall} {raw : List (PyStr × Value)}
    (h : payloadMarkerFree tc.payload) :
    ∀ tc', resolvePlaceholder tc raw = .ok tc' → payloadMarkerFree tc'.payload := by
  intro tc' h'
  unfold resolvePlaceholder at h'
  split at h'
  · rename_i fq heq
    have hfq : markerFree fq := by
      obtain ⟨k', hk⟩ := payloadLookup_mem heq
      exact h (k', PVal.s fq) hk
    have hfq' : hasSubstr fq (pys "PLACEHOLDER") = false := hfq
    have hc1 : ¬ containsSub fq (pys "caller.id==PLACEHOLDER") = true := by
      intro habs
      have h2 : hasSubstr fq (pys "PLACEHOLDER") = true :=
        hasSubstr_dropLeft
          (show hasSubstr fq (pys "caller.id==" ++ pys "PLACEHOLDER") = true from habs)
      rw [hfq'] at h2
      exact absurd h2 (by decide)
    have hc2 : ¬ containsSub fq (pys "operator.id==PLACEHOLDER") = true := by
      intro habs
      have h2 : hasSubstr fq (pys "PLACEHOLDER") = true :=
        hasSubstr_dropLeft
          (show hasSubstr fq (pys "operator.id==" ++ pys "PLACEHOLDER") = true from habs)
      rw [hfq'] at h2
      exact absurd h2 (by decide)
    rw [if_neg hc1, if_neg hc2] at h'
    exact (Except.ok.inj h') ▸ h
  · exact Except.noConfusion h'
  · exact (Except.ok.inj h') ▸ h

theorem pyJoin_decomp {sep p : PyStr} :
    ∀ {parts : List PyStr}, p ∈ parts →
      ∃ A B, pyJoin sep parts = A ++ p ++ B := by
  intro parts
  induction parts with
  | nil => intro h; simp at h
  | cons a t ih =>
    intro h
    cases t with
    | nil =>
      have h1 := List.mem_singleton.mp h
      subst h1
      exact ⟨[], [], by simp [pyJoin]⟩
    | cons b u =>
      rcases List.mem_cons.mp h with h1 | h1
      · subst h1
        refine ⟨[], sep ++ pyJoin sep (b :: u), ?_⟩
        show p ++ sep ++ pyJoin sep (b :: u) = _
        simp [List.append_assoc]
      · obtain ⟨A, B, hAB⟩ := ih h1
        refine ⟨a ++ sep ++ A, B, ?_⟩
        show a ++ sep ++ pyJoin sep (b :: u) = _
        rw [hAB]
        simp [List.append_assoc]

theorem strOfPayload_contains {payload : List (PyStr × PVal)} {k v pat : PyStr}
    (hkv : (k, PVal.s v) ∈ payload) (hv : hasSubstr v pat = true) :
    hasSubstr (strOfPayload payload) pat = true := by
  obtain ⟨A, B, hAB⟩ := pyJoin_decomp (List.mem_map_of_mem entryOf hkv)
  obtain ⟨u, w, hv'⟩ := hasSubstr_iff.mp hv
  apply hasSubstr_iff.mpr
  refine ⟨pys "\x7b" ++ A ++ pys "'" ++ k ++ pys "': " ++ pys "'" ++ u,
          w ++ pys "'" ++ B ++ pys "\x7d", ?_⟩
  unfold strOfPayload
  rw [hAB]
  rw [show entryOf (k, PVal.s v) =
    pys "'" ++ k ++ pys "': " ++ (pys "'" ++ v ++ pys "'") from rfl]
  rw [hv']
  simp [List.append_assoc]

theorem strOfPayload_marker {pat rest : PyStr} {m : Nat}
    (hpat : pat = pys "caller.id==PLACEHOLDER" ∨
      pat = pys "operator.id==PLACEHOLDER") :
    containsSub (strOfPayload [(pys "fiql_query", PVal.s (pat ++ ';' :: rest)),
      (pys "page_size", PVal.n m)]) (pys "PLACEHOLDER") = true := by
  show hasSubstr _ _ = true
  apply strOfPayload_contains (List.mem_cons_self _ _)
  rcases hpat with h | h <;> subst h
  · exact hasSubstr_iff.mpr ⟨pys "caller.id==", ';' :: rest, rfl⟩
  · exact hasSubstr_iff.mpr ⟨pys "operator.id==", ';' :: rest, rfl⟩

theorem resolvePlaceholder_shape {tc : ToolCall} {raw : List (PyStr × Value)}
    {pat rest : PyStr} {m : Nat}
    (hpat : pat = pys "caller.id==PLACEHOLDER" ∨
      pat = pys "operator.id==PLACEHOLDER")
    (hpl : tc.payload = [(pys "fiql_query", PVal.s (pat ++ ';' :: rest)),
                         (pys "page_size", PVal.n m)])
    (hrest : markerFree rest) (hraw : rawOk raw) :
    ∀ tc', resolvePlaceholder tc raw = .ok tc' → payloadMarkerFree tc'.payload := by
  have hsemi : markerFree (';' :: rest) := markerFree_cons_semi hrest
  have hsemi' : hasSubstr (';' :: rest) (pys "PLACEHOLDER") = false := hsemi
  intro tc' h'
  unfold resolvePlaceholder at h'
  split at h'
  · rename_i fq heq
    rw [hpl] at heq h'
    have hlk : payloadLookup [(pys "fiql_query", PVal.s (pat ++ ';' :: rest)),
        (pys "page_size", PVal.n m)] (pys "fiql_query") =
        some (PVal.s (pat ++ ';' :: rest)) := by simp [payloadLookup]
    rw [hlk] at heq
    have hfq : pat ++ ';' :: rest = fq := by
      have h2 := Option.some.inj heq
      exact congrArg (fun x => match x with | PVal.s y => y | PVal.n _ => []) h2
    rw [← hfq] at h'
    rcases hpat with hp | hp <;> subst hp
    · -- caller placeholder
      have hnorest : hasSubstr (';' :: rest) (pys "caller.id==PLACEHOLDER") = false := by
        rw [Bool.eq_false_iff]
        intro habs
        have h3 := hasSubstr_dropLeft
          (show hasSubstr (';' :: rest) (pys "caller.id==" ++ pys "PLACEHOLDER") = true
            from habs)
        rw [hsemi'] at h3
        exact absurd h3 (by decide)
      have hc1 : containsSub (pys "caller.id==PLACEHOLDER" ++ ';' :: rest)
          (pys "caller.id==PLACEHOLDER") = true :=
        hasSubstr_of_isPrefixOf (isPrefixOf_iff_exists.mpr ⟨';' :: rest, rfl⟩)
      rw [if_pos hc1] at h'
      split at h'
      · rename_i pid heq2
        have htc' := Except.ok.inj h'
        rw [← htc']
        rw [payloadSet_fiql]
        intro kv hkv
        rcases List.mem_cons.mp hkv with hk | hk
        · subst hk
          show markerFree (pyReplace (pys "caller.id==PLACEHOLDER" ++ ';' :: rest)
            (pys "caller.id==PLACEHOLDER")
            (pys "caller.id=='" ++ pyStrVal pid ++ pys "'"))
          rw [pyReplace_front (by decide) hnorest]
          have hid := findPersonId_markerFree hraw pid heq2
          rw [show (pys "caller.id=='" ++ pyStrVal pid ++ pys "'") ++ ';' :: rest =
              pys "caller.id=='" ++ (pyStrVal pid ++ '\'' :: ';' :: rest) by
            simp only [List.append_assoc]
            rfl]
          exact markerFree_append_left (by decide)
            (markerFree_sep (by decide) hid hsemi)
        · rcases List.mem_cons.mp hk with hk' | hk'
          · subst hk'
            trivial
          · simp at hk'
      · rename_i heq2
        have htc' := Except.ok.inj h'
        rw [← htc']
        rw [payloadSet_fiql]
        intro kv hkv
        rcases List.mem_cons.mp hkv with hk | hk
        · subst hk
          show markerFree (pyReplace (pys "caller.id==PLACEHOLDER" ++ ';' :: rest)
            (pys "caller.id==PLACEHOLDER") (pys "caller.id=='NOTFOUND'"))
          rw [pyReplace_front (by decide) hnorest]
          exact markerFree_append_left (by decide) hsemi
        · rcases List.mem_cons.mp hk with hk' | hk'
          · subst hk'
            trivial
          · simp at hk'
    · -- operator placeholder
      have hnorest : hasSubstr (';' :: rest) (pys "operator.id==PLACEHOLDER") = false := by
        rw [Bool.eq_false_iff]
        intro habs
        have h3 := hasSubstr_dropLeft
          (show hasSubstr (';' :: rest) (pys "operator.id==" ++ pys "PLACEHOLDER") = true
            from habs)
        rw [hsemi'] at h3
        exact absurd h3 (by decide)
      have hc1 : ¬ containsSub (pys "operator.id==PLACEHOLDER" ++ ';' :: rest)
          (pys "caller.id==PLACEHOLDER") = true := by
        intro habs
        rcases hasSubstr_head_split
            (show hasSubstr (pys "operator.id==PLACEHOLDER" ++ ';' :: rest)
              ('c' :: pys "aller.id==PLACEHOLDER") = true from habs) with h1 | h2
        · exact absurd h1 (by decide)
        · have h3 := hasSubstr_dropLeft
            (show hasSubstr (';' :: rest) (pys "caller.id==" ++ pys "PLACEHOLDER") = true
              from h2)
          rw [hsemi'] at h3
          exact absurd h3 (by decide)
      rw [if_neg hc1] at h'
      have hc2 : containsSub (pys "operator.id==PLACEHOLDER" ++ ';' :: rest)
          (pys "operator.id==PLACEHOLDER") = true :=
        hasSubstr_of_isPrefixOf (isPrefixOf_iff_exists.mpr ⟨';' :: rest, rfl⟩)
      rw [if_pos hc2] at h'
      split at h'
      · rename_i oid heq2
        have htc' := Except.ok.inj h'
        rw [← htc']
        rw [payloadSet_fiql]
        intro kv hkv
        rcases List.mem_cons.mp hkv with hk | hk
        · subst hk
          show markerFree (pyReplace (pys "operator.id==PLACEHOLDER" ++ ';' :: rest)
            (pys "operator.id==PLACEHOLDER")
            (pys "operator.id=='" ++ pyStrVal oid ++ pys "'"))
          rw [pyReplace_front (by decide) hnorest]
          have hid := findOperatorId_markerFree hraw oid heq2
          rw [show (pys "operator.id=='" ++ pyStrVal oid ++ pys "'") ++ ';' :: rest =
              pys "operator.id=='" ++ (pyStrVal oid ++ '\'' :: ';' :: rest) by
            simp only [List.append_assoc]
            rfl]
          exact markerFree_append_left (by decide)
            (markerFree_sep (by decide) hid hsemi)
        · rcases List.mem_cons.mp hk with hk' | hk'
          · subst hk'
            trivial
          · simp at hk'
      · rename_i heq2
        have htc' := Except.ok.inj h'
        rw [← htc']
        rw [payloadSet_fiql]
        intro kv hkv
        rcases List.mem_cons.mp hkv with hk | hk
        · subst hk
          show markerFree (pyReplace (pys "operator.id==PLACEHOLDER" ++ ';' :: rest)
            (pys "operator.id==PLACEHOLDER") (pys "operator.id=='NOTFOUND'"))
          rw [pyReplace_front (by decide) hnorest]
          exact markerFree_append_left (by decide) hsemi
        · rcases List.mem_cons.mp hk with hk' | hk'
          · subst hk'
            trivial
          · simp at hk'
  · rename_i mv heq
    rw [hpl] at heq
    have hlk : payloadLookup [(pys "fiql_query", PVal.s (pat ++ ';' :: rest)),
        (pys "page_size", PVal.n m)] (pys "fiql_query") =
        some (PVal.s (pat ++ ';' :: rest)) := by simp [payloadLookup]
    rw [hlk] at heq
    exact absurd (Option.some.inj heq) (by simp)
  · rename_i heq
    rw [hpl] at heq
    have hlk : payloadLookup [(pys "fiql_query", PVal.s (pat ++ ';' :: rest)),
        (pys "page_size", PVal.n m)] (pys "fiql_query") =
        some (PVal.s (pat ++ ';' :: rest)) := by simp [payloadLookup]
    rw [hlk] at heq
    exact Option.noConfusion heq

/-! ## The executor only passes `PayloadOk`-derived payloads on (claim C5) -/

theorem execSteps_calls_ok (client : Nat → ToolCall → Except PyStr Value)
    (hc : ∀ i tc v, client i tc = .ok v → respIdsMarkerFree v) :
    ∀ (tcs : List ToolCall) (i : Nat) (raw : List (PyStr × Value))
      (calls executed : List ToolCall),
      rawOk raw → (∀ tc ∈ tcs, PayloadOk tc.payload) →
      (∀ tc ∈ calls, payloadMarkerFree tc.payload) →
      ∀ tc ∈ (execSteps client i raw calls executed tcs).calls,
        payloadMarkerFree tc.payload := by
  intro tcs
  induction tcs with
  | nil =>
    intro i raw calls executed _ _ hcalls tc htc
    exact hcalls tc htc
  | cons tc0 rest ih =>
    intro i raw calls executed hraw htcs hcalls tc htc
    rw [execSteps] at htc
    try dsimp only at htc
    have hok : ∀ tc', (if containsSub (strOfPayload tc0.payload) (pys "PLACEHOLDER")
        then resolvePlaceholder tc0 raw else Except.ok tc0) = .ok tc' →
          payloadMarkerFree tc'.payload := by
      intro tc' h'
      rcases htcs tc0 (List.mem_cons_self _ _) with
        hmf | ⟨pat, rest', m, hpat, hpl, hrest⟩
      · split at h'
        · exact resolvePlaceholder_markerFree hmf tc' h'
        · exact (Except.ok.inj h') ▸ hmf
      · have hcond : containsSub (strOfPayload tc0.payload)
            (pys "PLACEHOLDER") = true := by
          rw [hpl]
          exact strOfPayload_marker hpat
        rw [if_pos hcond] at h'
        exact resolvePlaceholder_shape hpat hpl hrest hraw tc' h'
    have htcs' : ∀ t ∈ rest, PayloadOk t.payload :=
      fun t ht => htcs t (List.mem_cons_of_mem _ ht)
    cases hres : (if containsSub (strOfPayload tc0.payload) (pys "PLACEHOLDER")
        then resolvePlaceholder tc0 raw else Except.ok tc0) with
    | error u =>
      rw [hres] at htc
      try dsimp only at htc
      refine ih (i + 1) _ calls executed ?_ htcs' hcalls tc htc
      intro kv hkv
      rcases List.mem_append.mp hkv with h1 | h1
      · exact hraw kv h1
      · have h2 := List.mem_singleton.mp h1
        subst h2
        exact respIdsMarkerFree_errorDict _
    | ok tc' =>
      rw [hres] at htc
      try dsimp only at htc
      cases heqc : client i tc' with
      | ok v =>
        rw [heqc] at htc
        try dsimp only at htc
        refine ih (i + 1) _ (calls ++ [tc']) (executed ++ [tc']) ?_ htcs' ?_ tc htc
        · intro kv hkv
          rcases List.mem_append.mp hkv with h1 | h1
          · exact hraw kv h1
          · have h2 := List.mem_singleton.mp h1
            subst h2
            exact hc i tc' v heqc
        · intro t ht
          rcases List.mem_append.mp ht with h1 | h1
          · exact hcalls t h1
          · have h2 := List.mem_singleton.mp h1
            subst h2
            exact hok t hres
      | error e =>
        rw [heqc] at htc
        try dsimp only at htc
        refine ih (i + 1) _ (calls ++ [tc']) executed ?_ htcs' ?_ tc htc
        · intro kv hkv
          rcases List.mem_append.mp hkv with h1 | h1
          · exact hraw kv h1
          · have h2 := List.mem_singleton.mp h1
            subst h2
            exact respIdsMarkerFree_errorDict _
        · intro t ht
          rcases List.mem_append.mp ht with h1 | h1
          · exact hcalls t h1
          · have h2 := List.mem_singleton.mp h1
            subst h2
            exact hok t hres

/-- **C5** (counterexample): for the query `tickets for John Doe`, if the
person lookup answers with a record whose `id` field is itself the string
`PLACEHOLDER`, the executor's second call passes a `fiql_query` that still
contains `PLACEHOLDER` to the client — the literal substitution
`caller.id=='<id>'` cannot distinguish marker from data, so the claimed
unconditional invariant is false. -/
theorem claim_c5_counterexample :
    ∃ tc ∈ (executePlan (plan_query dayStub (pys "tickets for John Doe") 5)
        badClient).calls,
      ∃ kv ∈ tc.payload, ∃ s, kv.2 = PVal.s s ∧
        containsSub s (pys "PLACEHOLDER") = true := by
  refine ⟨c5BadCall, ?_, (pys "fiql_query", PVal.s
      (pys "caller.id=='PLACEHOLDER';creationDate=ge=2024-01-01T00:00:00Z")),
    List.mem_cons_self _ _,
    pys "caller.id=='PLACEHOLDER';creationDate=ge=2024-01-01T00:00:00Z", rfl,
    by decide⟩
  rw [show (executePlan (plan_query dayStub (pys "tickets for John Doe") 5)
      badClient).calls = [c5LookupCall, c5BadCall] from rfl]
  exact List.mem_cons_of_mem _ (List.mem_cons_self _ _)

/-- **C5** (amended): for every query, provided the clock strings carry no
`PLACEHOLDER` and every id extractable from a successful client response is
itself free of `PLACEHOLDER`, every payload value the executor actually
passes to `call_tool` is free of the substring `PLACEHOLDER`. -/
theorem claim_c5_amended (d : Nat → PyStr) (query : PyStr) (max_results : Nat)
    (client : Nat → ToolCall → Except PyStr Value)
    (hd : ∀ k, markerFree (d k))
    (hc : ∀ i tc v, client i tc = .ok v → respIdsMarkerFree v) :
    ∀ tc ∈ (executePlan (plan_query d query max_results) client).calls,
      payloadMarkerFree tc.payload :=
  execSteps_calls_ok client hc (plan_query d query max_results).tool_calls 0 [] [] []
    (fun kv hkv => absurd hkv (List.not_mem_nil kv))
    (plan_query_payloads d query max_results hd)
    (fun t ht => absurd ht (List.not_mem_nil t))

/-- Witness for the amended C5 theorem: the resolved second call of the
`tickets for John Doe` plan against the benign stub client has a
marker-free payload. -/
theorem claim_c5_amended_witness : payloadMarkerFree c5StubCall.payload :=
  claim_c5_amended dayStub (pys "tickets for John Doe") 5 stubClient
    (fun _ => markerFree_of_not_P
      (show 'P' ∉ pys "2024-01-01T00:00:00Z" by decide))
    (fun i tc v h => by
      rw [← Except.ok.inj h]
      exact respIdsMarkerFree_listNil)
    c5StubCall
    (by
      rw [show (executePlan (plan_query dayStub (pys "tickets for John Doe") 5)
          stubClient).calls = [c5LookupCall, c5StubCall] from rfl]
      exact List.mem_cons_of_mem _ (List.mem_cons_self _ _))

end Topdesk
